import Mathlib

/-
  Verification of the real-time WebSocket notification subsystem of the
  repository (backend/app/core/websocket.py, ConnectionManager and the
  notification facade, plus backend/app/services/notification_service.py).

  Shallow embedding notes:
  * Python dicts are modelled as insertion-ordered association lists
    (`AListM`): assignment to an existing key updates it in place,
    assignment to a fresh key appends; `del` removes the key; iteration
    follows list order, exactly as CPython dict iteration follows
    insertion order.
  * Python sets of user ids (topic subscriber sets) are modelled as
    duplicate-free lists: `add` appends when absent, `discard` filters.
  * A websocket transport handle is `WS`: an identity plus a flag `ok`
    saying whether `send_text` on it succeeds.  `send_text` returns
    `Except Unit Unit`; a `try/except` in the source is translated as a
    `match` on that result, so a function whose source catches every
    exception is a total Lean function.
  * The manager is modelled in its default configuration
    `redis_client = None` (`ConnectionManager.__init__` sets it to `None`
    and it only changes if an external Redis answers a ping), so every
    `if self.redis_client:` block of the source is skipped.
  * `datetime.utcnow().isoformat()` values and `uuid4` message ids are
    passed in as explicit `now`/`mid` arguments.
  * In `disconnect`, the source line
    `self.user_metadata[user_id]["connection_count"] = len(...)` assumes
    the key is present (it always is when the user has a live connection,
    since `connect` writes the metadata entry); the embedding updates the
    entry when present and leaves the map unchanged otherwise.
-/

namespace Gephr

/-! ## Insertion-ordered association maps (Python dict) -/

/-- Insertion-ordered association list modelling a Python dict. -/
abbrev AListM (α β : Type) : Type := List (α × β)

/-- Python `d[k]` lookup (first entry with the key). -/
def alookup {α β : Type} [DecidableEq α] : AListM α β → α → Option β
  | [], _ => none
  | (k, v) :: t, a => if k = a then some v else alookup t a

/-- Python `d[k] = v`: update in place when the key exists, append otherwise. -/
def ainsert {α β : Type} [DecidableEq α] : AListM α β → α → β → AListM α β
  | [], a, b => [(a, b)]
  | (k, v) :: t, a, b => if k = a then (a, b) :: t else (k, v) :: ainsert t a b

/-- Python `del d[k]`: remove the entry with the key. -/
def aerase {α β : Type} [DecidableEq α] : AListM α β → α → AListM α β
  | [], _ => []
  | (k, v) :: t, a => if k = a then aerase t a else (k, v) :: aerase t a

/-- The keys of the map, in insertion order (Python `list(d.keys())`). -/
def akeys {α β : Type} (d : AListM α β) : List α :=
  d.map (fun kv => kv.1)

/-! ## Data model (websocket.py) -/

/-- The closed enumeration of event kinds (`MessageType` in websocket.py). -/
inductive MessageType where
  | ROBOT_CONNECTED | ROBOT_DISCONNECTED | ROBOT_STATE_UPDATE
  | ROBOT_COMMAND_RESULT | ROBOT_ERROR | ROBOT_EMERGENCY_STOP
  | TRAINING_STARTED | TRAINING_PROGRESS | TRAINING_COMPLETED | TRAINING_FAILED
  | GROOT_TRAINING_STARTED | GROOT_TRAINING_PROGRESS | GROOT_TRAINING_COMPLETED
  | GROOT_SIMULATION_DEPLOYED | GROOT_TEST_RESULTS
  | PIPELINE_STARTED | PIPELINE_STAGE_COMPLETED | PIPELINE_COMPLETED | PIPELINE_FAILED
  | ACHIEVEMENT_UNLOCKED | DATA_EXPORT_READY | SYSTEM_MAINTENANCE
  | HEARTBEAT | USER_CONNECTED | USER_DISCONNECTED
deriving DecidableEq

/-- `NotificationMessage` dataclass: typed envelope carrying an event.
    The payload map `data` is opaque to the manager. -/
structure NotificationMessage where
  message_type : MessageType
  data : List (String × String)
  timestamp : String
  message_id : Nat
  user_id : Option String
deriving DecidableEq

/-- A websocket transport handle: an identity and whether a write on it
    succeeds (a failing write raises in the source). -/
structure WS where
  wid : Nat
  ok : Bool
deriving DecidableEq

/-- `await websocket.send_text(...)`: raises exactly when the transport
    is broken. -/
def send_text (ws : WS) : Except Unit Unit :=
  if ws.ok then Except.ok () else Except.error ()

/-- Per-user presence metadata (`self.user_metadata[user_id]`). -/
structure Metadata where
  connected_at : String
  last_activity : String
  connection_count : Nat
deriving DecidableEq

/-- One attempted write in the delivery trace: which connection was
    written, the message, and whether the write succeeded. -/
structure Attempt where
  conn : String
  msg : NotificationMessage
  success : Bool
deriving DecidableEq

/-- The state of `ConnectionManager` (default configuration, no Redis). -/
structure Manager where
  active_connections : AListM String (AListM String WS)
  user_connections : AListM String (List String)
  robot_connections : AListM String String
  subscriptions : AListM String (List String)
  user_metadata : AListM String Metadata
  message_queue : AListM String (List NotificationMessage)
deriving DecidableEq

/-- A freshly constructed `ConnectionManager()`. -/
def initManager : Manager := ⟨[], [], [], [], [], []⟩

/-- The record returned by `get_connection_stats`. -/
structure Stats where
  total_users : Nat
  total_connections : Nat
  user_connections : Nat
  robot_connections : Nat
  active_topics : Nat
  queued_messages : Nat
  active_users : List String
  connected_robots : List String
deriving DecidableEq

/-- The counts record the spec claims `publish` returns.  No function of
    the source constructs such a value; the embedded send functions
    expose their Python return value as an `Option PublishCounts`, and
    it is `none` (Python `None`) on every path. -/
structure PublishCounts where
  delivered_count : Nat
  queued_count : Nat
deriving DecidableEq

/-! ## ConnectionManager operations -/

/-- Core of `_queue_message`: append to the per-user buffer, then keep
    only the last 100 entries (`self.message_queue[user_id][-100:]`). -/
def queue_append (q : List NotificationMessage) (m : NotificationMessage) :
    List NotificationMessage :=
  if (q ++ [m]).length > 100 then (q ++ [m]).drop ((q ++ [m]).length - 100)
  else q ++ [m]

/-- `_queue_message(user_id, message)` (Redis branch skipped: no client). -/
def queue_message (s : Manager) (u : String) (m : NotificationMessage) : Manager :=
  { s with message_queue :=
      ainsert s.message_queue u (queue_append ((alookup s.message_queue u).getD []) m) }

/-- `self.user_metadata[user_id]["last_activity"] = now`, guarded by
    `if user_id in self.user_metadata` as in the source. -/
def meta_set_activity (md : AListM String Metadata) (u : String) (now : String) :
    AListM String Metadata :=
  match alookup md u with
  | none => md
  | some v => ainsert md u { v with last_activity := now }

/-- `self.user_metadata[user_id]["connection_count"] = n` (key present in
    every reachable state with a live connection for the user). -/
def meta_set_count (md : AListM String Metadata) (u : String) (n : Nat) :
    AListM String Metadata :=
  match alookup md u with
  | none => md
  | some v => ainsert md u { v with connection_count := n }

/-- First block of `disconnect`: remove the connection from
    `active_connections`; when the user has no connection left, drop the
    user and their presence metadata, otherwise refresh the count. -/
def disconnect_active (s : Manager) (u cid : String) : Manager :=
  match alookup s.active_connections u with
  | none => s
  | some conns =>
    if (alookup conns cid).isSome then
      if (aerase conns cid).isEmpty then
        { s with active_connections := aerase s.active_connections u,
                 user_metadata := aerase s.user_metadata u }
      else
        { s with active_connections := ainsert s.active_connections u (aerase conns cid),
                 user_metadata := meta_set_count s.user_metadata u (aerase conns cid).length }
    else s

/-- Second block of `disconnect` (legacy map).  The source guard is
    `if user_id and user_id in self.user_connections`: an empty user id
    is falsy and skips the block. -/
def legacy_remove (d : AListM String (List String)) (u cid : String) :
    AListM String (List String) :=
  if u = "" then d else
  match alookup d u with
  | none => d
  | some l =>
    let l' := l.erase cid
    if l'.isEmpty then aerase d u else ainsert d u l'

/-- Third block of `disconnect`: drop the robot mapping when it points at
    this connection (`if robot_id and robot_id in self.robot_connections`). -/
def disconnect_robot (s : Manager) (cid : String) : Option String → Manager
  | none => s
  | some r =>
    if r = "" then s else
    match alookup s.robot_connections r with
    | none => s
    | some c => if c = cid then { s with robot_connections := aerase s.robot_connections r } else s

/-- `disconnect(user_id, connection_id, robot_id=None)`. -/
def disconnect (s : Manager) (u cid : String) (rid : Option String) : Manager :=
  disconnect_robot
    { disconnect_active s u cid with
        user_connections := legacy_remove (disconnect_active s u cid).user_connections u cid }
    cid rid

/-- `subscribe_to_topic(user_id, topic)`: set-add on the subscriber set. -/
def subscribe_to_topic (s : Manager) (u t : String) : Manager :=
  let subs := (alookup s.subscriptions t).getD []
  let subs := if u ∈ subs then subs else subs ++ [u]
  { s with subscriptions := ainsert s.subscriptions t subs }

/-- `unsubscribe_from_topic(user_id, topic)`: set-discard, dropping the
    topic entry when its subscriber set becomes empty. -/
def unsubscribe_from_topic (s : Manager) (u t : String) : Manager :=
  match alookup s.subscriptions t with
  | none => s
  | some subs =>
    let subs' := subs.filter (fun v => v ≠ u)
    if subs'.isEmpty then { s with subscriptions := aerase s.subscriptions t }
    else { s with subscriptions := ainsert s.subscriptions t subs' }

/-- The fan-out loop of `send_to_user_enhanced`: write to each connection;
    a successful write refreshes `last_activity`; a raising write is
    caught and the connection id is collected for cleanup. -/
def send_loop (u now : String) (m : NotificationMessage) :
    Manager × List Attempt × List String → List (String × WS) →
    Manager × List Attempt × List String
  | acc, [] => acc
  | (s, tr, dis), (cid, ws) :: rest =>
    match send_text ws with
    | Except.ok _ =>
      send_loop u now m
        ({ s with user_metadata := meta_set_activity s.user_metadata u now },
         tr ++ [⟨cid, m, true⟩], dis) rest
    | Except.error _ =>
      send_loop u now m (s, tr ++ [⟨cid, m, false⟩], dis ++ [cid]) rest

/-- `send_to_user_enhanced(user_id, message)`.  Besides the new state it
    returns the trace of attempted writes and the Python return value of
    the method, which is `None` on every path (exposed as
    `Option PublishCounts` so the spec claim about a counts record can be
    stated); the function is total because every transport exception is
    caught inside the loop.
    Aliasing note: the source stamps the target with an in-place mutation
    `message.user_id = user_id` of a message object that a topic fan-out
    shares between recipients and that `_queue_message` appends by
    reference, so a later recipient of the same fan-out restamps the
    object already sitting in an earlier offline recipient's queue.  The
    embedding stamps an immutable per-call copy instead.  The two agree
    on every observable used below except the eventual `user_id` field of
    an entry queued during a multi-recipient fan-out; no theorem depends
    on that field of a queued entry (C9 is stated up to it). -/
def send_to_user_enhanced (s : Manager) (u : String) (m : NotificationMessage)
    (now : String) : Manager × List Attempt × Option PublishCounts :=
  let m' := { m with user_id := some u }
  match alookup s.active_connections u with
  | some conns =>
    let r := send_loop u now m' (s, [], []) conns
    (r.2.2.foldl (fun s c => disconnect s u c none) r.1, r.2.1, none)
  | none => (queue_message s u m', [], none)

/-- `send_to_topic(topic, message)`: iterate a copy of the subscriber set
    taken at entry (`self.subscriptions[topic].copy()`). -/
def send_to_topic (s : Manager) (t : String) (m : NotificationMessage)
    (now : String) : Manager × List Attempt :=
  match alookup s.subscriptions t with
  | none => (s, [])
  | some subs =>
    subs.foldl
      (fun acc u =>
        let r := send_to_user_enhanced acc.1 u m now
        (r.1, acc.2 ++ r.2.1)) (s, [])

/-- Inner loop of `_send_queued_messages` for one message: write it to
    each connection of the user; the first raising write aborts delivery
    of this one message (the exception is caught at message level). -/
def queued_inner (conns : List (String × WS)) (m : NotificationMessage) :
    List Attempt :=
  match conns with
  | [] => []
  | (cid, ws) :: rest =>
    match send_text ws with
    | Except.ok _ => ⟨cid, m, true⟩ :: queued_inner rest m
    | Except.error _ => [⟨cid, m, false⟩]

/-- `_send_queued_messages(user_id)`: replay the in-memory queue to the
    freshly connected user, then delete the queue (Redis branch skipped). -/
def send_queued_messages (s : Manager) (u : String) : Manager × List Attempt :=
  match alookup s.message_queue u with
  | none => (s, [])
  | some q =>
    let tr := q.foldl
      (fun tr m =>
        match alookup s.active_connections u with
        | none => tr
        | some conns => tr ++ queued_inner conns m) []
    ({ s with message_queue := aerase s.message_queue u }, tr)

/-- The connection confirmation built at the end of `connect`. -/
def user_connected_message (u cid now : String) (mid : Nat) : NotificationMessage :=
  { message_type := MessageType.USER_CONNECTED,
    data := [("connection_id", cid), ("user_id", u)],
    timestamp := now, message_id := mid, user_id := none }

/-- `connect(websocket, user_id, connection_id, robot_id)`: store the
    connection, update the legacy map, overwrite the presence metadata,
    replay queued messages, then send the confirmation.  Returns the new
    state, the connection id and the trace of writes performed. -/
def connect (s : Manager) (ws : WS) (u cid : String) (rid : Option String)
    (now : String) (mid : Nat) : Manager × String × List Attempt :=
  let conns := ainsert ((alookup s.active_connections u).getD []) cid ws
  let s := { s with active_connections := ainsert s.active_connections u conns }
  let l := (alookup s.user_connections u).getD []
  let l := if cid ∈ l then l else l ++ [cid]
  let s := { s with user_connections := ainsert s.user_connections u l }
  let s := { s with user_metadata := ainsert s.user_metadata u ⟨now, now, conns.length⟩ }
  let s := match rid with
           | some r => { s with robot_connections := ainsert s.robot_connections r cid }
           | none => s
  let r1 := send_queued_messages s u
  let r2 := send_to_user_enhanced r1.1 u (user_connected_message u cid now mid) now
  (r2.1, cid, r1.2 ++ r2.2.1)

/-- `broadcast_enhanced(message)`: iterate a snapshot of the user list
    (`list(self.active_connections.keys())`). -/
def broadcast_enhanced (s : Manager) (m : NotificationMessage) (now : String) :
    Manager × List Attempt :=
  (akeys s.active_connections).foldl
    (fun acc u =>
      let r := send_to_user_enhanced acc.1 u m now
      (r.1, acc.2 ++ r.2.1)) (s, [])

/-- `get_connection_stats()`. -/
def get_connection_stats (s : Manager) : Stats :=
  { total_users := s.active_connections.length,
    total_connections := (s.active_connections.map (fun kv => kv.2.length)).sum,
    user_connections := s.user_connections.length,
    robot_connections := s.robot_connections.length,
    active_topics := s.subscriptions.length,
    queued_messages := (s.message_queue.map (fun kv => kv.2.length)).sum,
    active_users := akeys s.active_connections,
    connected_robots := akeys s.robot_connections }

/-! ## Legacy send path and the notification facade
    (`send_personal_message`, `send_to_user`, and
    `NotificationService.send_notification` of
    services/notification_service.py). -/

/-- Scan of `send_personal_message`: walk all users and their connections
    in insertion order and return the websocket of the first connection
    whose id matches. -/
def find_conn_ws : AListM String (AListM String WS) → String → Option WS
  | [], _ => none
  | (_, conns) :: rest, cid =>
    match alookup conns cid with
    | some ws => some ws
    | none => find_conn_ws rest cid

/-- `send_personal_message(message, connection_id)`: send to the first
    matching connection; a transport failure is not caught here.  When
    no connection matches, the loop falls through and returns `None`. -/
def send_personal_message (s : Manager) (cid : String) : Except Unit Unit :=
  match find_conn_ws s.active_connections cid with
  | some ws => send_text ws
  | none => Except.ok ()

/-- Inner loop of the legacy `send_to_user`: first raising write aborts
    the loop and propagates. -/
def legacy_send_all (s : Manager) : List String → Except Unit Unit
  | [] => Except.ok ()
  | cid :: rest =>
    match send_personal_message s cid with
    | Except.ok _ => legacy_send_all s rest
    | Except.error e => Except.error e

/-- Legacy `send_to_user(message, user_id)`: silently does nothing when
    the user has no entry in the legacy map; in particular it never
    queues anything for an offline user. -/
def send_to_user (s : Manager) (u : String) : Except Unit Unit :=
  match alookup s.user_connections u with
  | none => Except.ok ()
  | some l => legacy_send_all s l

/-- `NotificationService._send_websocket_notification`: the legacy send
    wrapped in a `try/except` that converts failure into `False`. -/
def send_websocket_notification (s : Manager) (u : String) : Bool :=
  match send_to_user s u with
  | Except.ok _ => true
  | Except.error _ => false

/-- The value returned by `NotificationService.send_notification` in its
    default configuration `channels=[websocket]`: the four fields it
    actually carries (no delivered or queued counts). -/
structure NotificationResult where
  notification_id : String
  sent_at : String
  channel_websocket : Bool
  success : Bool
deriving DecidableEq

/-- `NotificationService.send_notification(user_id, ...)` with the
    default channel list `[websocket]`; `success` is
    `any(results.values())`.  The websocket channel is the legacy send,
    which mutates nothing in the manager. -/
def send_notification (s : Manager) (u : String) (nid ts : String) :
    NotificationResult :=
  let b := send_websocket_notification s u
  { notification_id := nid, sent_at := ts, channel_websocket := b, success := b }

/-! ## Operation sequences over the registries -/

/-- A register or unregister event against the connection registry. -/
inductive Op where
  | register (ws : WS) (u cid : String) (rid : Option String) (now : String) (mid : Nat)
  | unregister (u cid : String) (rid : Option String)

/-- Apply one register/unregister event. -/
def apply_op (s : Manager) : Op → Manager
  | Op.register ws u cid rid now mid => (connect s ws u cid rid now mid).1
  | Op.unregister u cid rid => disconnect s u cid rid

/-- Run a sequence of register/unregister events. -/
def run_ops (s : Manager) (ops : List Op) : Manager :=
  ops.foldl apply_op s

/-- A subscribe or unsubscribe event against the topic registry. -/
inductive TOp where
  | sub (u t : String)
  | unsub (u t : String)

/-- Apply one subscribe/unsubscribe event. -/
def apply_top (s : Manager) : TOp → Manager
  | TOp.sub u t => subscribe_to_topic s u t
  | TOp.unsub u t => unsubscribe_from_topic s u t

/-- Run a sequence of subscribe/unsubscribe events. -/
def run_tops (s : Manager) (tops : List TOp) : Manager :=
  tops.foldl apply_top s

/-! ## Interleaving model of the fan-out loops

    The event loop can run another task whenever the fan-out suspends at
    an `await` (a socket write).  An interference list carries one state
    mutation per suspension point; each entry is the atomic effect of a
    task that runs to completion during that await (for example
    `disconnect`, whose body has no await of its own).

    `send_to_topic` iterates `self.subscriptions[topic].copy()`: the
    iteration list is fixed before the first write.  In contrast,
    `send_to_user_enhanced` iterates the live dict
    `self.active_connections[user_id].items()`; CPython dict iterators
    check at every step that the dict size is unchanged and raise
    `RuntimeError` otherwise, which the loop models with its size guard
    against the size `n0` captured when the iterator was created. -/

/-- The live-dict fan-out loop of `send_to_user_enhanced` under
    interference.  `n0` is the dict size when the iterator was created,
    `i` the iterator position, `fuel` starts at `n0`.  At each step the
    current dict is re-read from the state; a size change raises
    (`Except.error`), exactly as the CPython dict iterator does. -/
def live_loop (u now : String) (m : NotificationMessage) (n0 : Nat) :
    Nat → Nat → Manager → List (Manager → Manager) → List String → List Attempt →
    Except Unit (Manager × List Attempt)
  | 0, _, s, _, dis, tr =>
    let cur := (alookup s.active_connections u).getD []
    if cur.length ≠ n0 then Except.error ()
    else Except.ok (dis.foldl (fun s c => disconnect s u c none) s, tr)
  | fuel + 1, i, s, interf, dis, tr =>
    let cur := (alookup s.active_connections u).getD []
    if cur.length ≠ n0 then Except.error ()
    else
      match cur[i]? with
      | none => Except.ok (dis.foldl (fun s c => disconnect s u c none) s, tr)
      | some (cid, ws) =>
        let a : Manager × List Attempt × List String :=
          match send_text ws with
          | Except.ok _ =>
            ({ s with user_metadata := meta_set_activity s.user_metadata u now },
             tr ++ [⟨cid, m, true⟩], dis)
          | Except.error _ => (s, tr ++ [⟨cid, m, false⟩], dis ++ [cid])
        let s' := match interf with
                  | [] => a.1
                  | f :: _ => f a.1
        live_loop u now m n0 fuel (i + 1) s' interf.tail a.2.2 a.2.1

/-- `send_to_user_enhanced` under the interleaving model: the result is
    an error exactly when a concurrent mutation changed the size of the
    connection dict being iterated. -/
def send_to_user_enhanced_live (s : Manager) (u : String)
    (m : NotificationMessage) (now : String)
    (interf : List (Manager → Manager)) : Except Unit (Manager × List Attempt) :=
  let m' := { m with user_id := some u }
  match alookup s.active_connections u with
  | some conns => live_loop u now m' conns.length conns.length 0 s interf [] []
  | none => Except.ok (queue_message s u m', [])

/-- The fan-out of `send_to_topic` under interference: the subscriber
    list was copied before the loop, so the iteration sequence is fixed;
    each per-user send is followed by one interference step. -/
def topic_fanout (m : NotificationMessage) (now : String) :
    List String → Manager → List (Manager → Manager) → List String →
    Manager × List String
  | [], s, _, att => (s, att)
  | u :: rest, s, interf, att =>
    let s := (send_to_user_enhanced s u m now).1
    let s' := match interf with
              | [] => s
              | f :: _ => f s
    topic_fanout m now rest s' interf.tail (att ++ [u])

/-- `send_to_topic` under the interleaving model; the second component
    is the list of users the loop delivered to, in iteration order. -/
def send_to_topic_live (s : Manager) (t : String) (m : NotificationMessage)
    (now : String) (interf : List (Manager → Manager)) : Manager × List String :=
  match alookup s.subscriptions t with
  | none => (s, [])
  | some subs => topic_fanout m now subs s interf []


/-! ## Lemmas about the association maps -/

theorem alookup_ainsert {α β : Type} [DecidableEq α] (d : AListM α β) (k : α) (v : β)
    (a : α) : alookup (ainsert d k v) a = if a = k then some v else alookup d a := by
  induction d with
  | nil =>
    by_cases h : a = k
    · subst h; simp [ainsert, alookup]
    · simp [ainsert, alookup, h, show ¬ k = a from fun h2 => h h2.symm]
  | cons hd t ih =>
    obtain ⟨k', v'⟩ := hd
    by_cases hk : k' = k
    · subst hk
      by_cases h : a = k'
      · subst h; simp [ainsert, alookup]
      · simp [ainsert, alookup, h, show ¬ k' = a from fun h2 => h h2.symm]
    · by_cases h : k' = a
      · subst h
        simp [ainsert, hk, alookup, show ¬ k' = k from hk]
      · simp [ainsert, hk, alookup, h, ih]

theorem alookup_ainsert_self {α β : Type} [DecidableEq α] (d : AListM α β) (k : α)
    (v : β) : alookup (ainsert d k v) k = some v := by
  simp [alookup_ainsert]

theorem alookup_ainsert_ne {α β : Type} [DecidableEq α] (d : AListM α β) (k : α)
    (v : β) (a : α) (h : a ≠ k) : alookup (ainsert d k v) a = alookup d a := by
  simp [alookup_ainsert, h]

theorem alookup_aerase {α β : Type} [DecidableEq α] (d : AListM α β) (k a : α) :
    alookup (aerase d k) a = if a = k then none else alookup d a := by
  induction d with
  | nil => simp [aerase, alookup]
  | cons hd t ih =>
    obtain ⟨k', v'⟩ := hd
    simp only [aerase]
    by_cases hk : k' = k
    · rw [if_pos hk, ih]
      subst hk
      by_cases h : a = k'
      · simp [h]
      · simp [alookup, h, show ¬ k' = a from fun h2 => h h2.symm]
    · rw [if_neg hk]
      simp only [alookup]
      by_cases h : k' = a
      · subst h
        simp [show ¬ k' = k from hk]
      · rw [if_neg h, ih]
        simp [h]

theorem alookup_aerase_self {α β : Type} [DecidableEq α] (d : AListM α β) (k : α) :
    alookup (aerase d k) k = none := by
  simp [alookup_aerase]

theorem alookup_aerase_ne {α β : Type} [DecidableEq α] (d : AListM α β) (k a : α)
    (h : a ≠ k) : alookup (aerase d k) a = alookup d a := by
  simp [alookup_aerase, h]

theorem ainsert_eq_self {α β : Type} [DecidableEq α] (d : AListM α β) (k : α) (v : β)
    (h : alookup d k = some v) : ainsert d k v = d := by
  induction d with
  | nil => simp [alookup] at h
  | cons hd t ih =>
    obtain ⟨k', v'⟩ := hd
    by_cases hk : k' = k
    · subst hk
      simp [alookup] at h
      simp [ainsert, h]
    · simp [alookup, hk] at h
      simp [ainsert, hk, ih h]

theorem akeys_nil {α β : Type} : akeys ([] : AListM α β) = [] := rfl

theorem akeys_cons {α β : Type} (k : α) (v : β) (t : AListM α β) :
    akeys ((k, v) :: t) = k :: akeys t := rfl

theorem mem_akeys_iff {α β : Type} [DecidableEq α] (d : AListM α β) (a : α) :
    a ∈ akeys d ↔ (alookup d a).isSome := by
  induction d with
  | nil => simp [akeys_nil, alookup]
  | cons hd t ih =>
    obtain ⟨k', v'⟩ := hd
    by_cases h : k' = a
    · subst h; simp [akeys_cons, alookup]
    · rw [akeys_cons, List.mem_cons]
      rw [show alookup ((k', v') :: t) a = alookup t a from by simp [alookup, h]]
      rw [← ih]
      simp [show ¬ a = k' from fun h2 => h h2.symm]

theorem alookup_eq_none_iff {α β : Type} [DecidableEq α] (d : AListM α β) (a : α) :
    alookup d a = none ↔ a ∉ akeys d := by
  rw [mem_akeys_iff]
  cases alookup d a <;> simp

theorem ainsert_ne_nil {α β : Type} [DecidableEq α] (d : AListM α β) (k : α) (v : β) :
    ainsert d k v ≠ [] := by
  cases d with
  | nil => simp [ainsert]
  | cons hd t =>
    obtain ⟨k', v'⟩ := hd
    by_cases h : k' = k <;> simp [ainsert, h]

theorem akeys_ainsert {α β : Type} [DecidableEq α] (d : AListM α β) (k : α) (v : β) :
    akeys (ainsert d k v) = if k ∈ akeys d then akeys d else akeys d ++ [k] := by
  induction d with
  | nil => simp [ainsert, akeys_nil, akeys_cons]
  | cons hd t ih =>
    obtain ⟨k', v'⟩ := hd
    by_cases h : k' = k
    · subst h; simp [ainsert, akeys_cons]
    · simp only [ainsert, if_neg h, akeys_cons, ih, List.mem_cons]
      by_cases h2 : k ∈ akeys t
      · simp [h2]
      · simp [h2, show ¬ k = k' from fun h3 => h h3.symm]

theorem akeys_ainsert_nodup {α β : Type} [DecidableEq α] (d : AListM α β) (k : α)
    (v : β) (h : (akeys d).Nodup) : (akeys (ainsert d k v)).Nodup := by
  rw [akeys_ainsert]
  by_cases h2 : k ∈ akeys d <;> simp [h2, h, List.nodup_append]

theorem aerase_of_not_mem {α β : Type} [DecidableEq α] (d : AListM α β) (k : α)
    (h : k ∉ akeys d) : aerase d k = d := by
  induction d with
  | nil => rfl
  | cons hd t ih =>
    obtain ⟨k', v'⟩ := hd
    rw [akeys_cons, List.mem_cons] at h
    push_neg at h
    simp [aerase, show ¬ k' = k from fun h2 => h.1 h2.symm, ih h.2]

theorem ainsert_of_not_mem {α β : Type} [DecidableEq α] (d : AListM α β) (k : α)
    (v : β) (h : k ∉ akeys d) : ainsert d k v = d ++ [(k, v)] := by
  induction d with
  | nil => simp [ainsert]
  | cons hd t ih =>
    obtain ⟨k', v'⟩ := hd
    rw [akeys_cons, List.mem_cons] at h
    push_neg at h
    simp [ainsert, show ¬ k' = k from fun h2 => h.1 h2.symm, ih h.2]

theorem length_aerase_of_mem {α β : Type} [DecidableEq α] (d : AListM α β) (k : α)
    (hnd : (akeys d).Nodup) (h : k ∈ akeys d) :
    (aerase d k).length + 1 = d.length := by
  induction d with
  | nil => simp [akeys_nil] at h
  | cons hd t ih =>
    obtain ⟨k', v'⟩ := hd
    rw [akeys_cons, List.mem_cons] at h
    rw [akeys_cons, List.nodup_cons] at hnd
    by_cases h2 : k' = k
    · subst h2
      simp [aerase, aerase_of_not_mem t k' hnd.1]
    · rcases h with h | h
      · exact absurd h.symm h2
      · have := ih hnd.2 h
        simp only [aerase, if_neg h2, List.length_cons]
        omega

/-! ## Lemmas about the bounded offline queue -/

theorem queue_append_eq (q : List NotificationMessage) (m : NotificationMessage) :
    queue_append q m = (q ++ [m]).drop ((q ++ [m]).length - 100) := by
  unfold queue_append
  by_cases h : (q ++ [m]).length > 100
  · rw [if_pos h]
  · rw [if_neg h]
    have h1 : (q ++ [m]).length - 100 = 0 := by omega
    rw [h1, List.drop_zero]

theorem length_queue_append_le (q : List NotificationMessage)
    (m : NotificationMessage) (h : q.length ≤ 100) :
    (queue_append q m).length ≤ 100 := by
  rw [queue_append_eq]
  simp only [List.length_drop, List.length_append, List.length_cons]
  omega

theorem queue_append_full (q : List NotificationMessage) (m : NotificationMessage)
    (h : q.length = 100) : queue_append q m = q.drop 1 ++ [m] := by
  rw [queue_append_eq]
  have h1 : (q ++ [m]).length - 100 = 1 := by simp [h]
  rw [h1]
  have h2 : (1 : Nat) ≤ q.length := by omega
  rw [List.drop_append_of_le_length h2]

theorem foldl_queue_append (ms : List NotificationMessage) :
    ∀ q : List NotificationMessage, q.length ≤ 100 →
      ms.foldl queue_append q = (q ++ ms).drop ((q ++ ms).length - 100) := by
  induction ms with
  | nil =>
    intro q hq
    have h1 : (q ++ ([] : List NotificationMessage)).length - 100 = 0 := by
      simp only [List.append_nil]
      omega
    rw [h1, List.drop_zero, List.append_nil, List.foldl_nil]
  | cons m ms ih =>
    intro q hq
    rw [List.foldl_cons, ih (queue_append q m) (length_queue_append_le q m hq),
      queue_append_eq]
    have hd : (q ++ [m]).length - 100 ≤ (q ++ [m]).length := by omega
    rw [← List.drop_append_of_le_length hd, List.drop_drop]
    have h2 : (q ++ [m]) ++ ms = q ++ m :: ms := by simp
    rw [h2]
    set_option maxRecDepth 4096 in congr 1
    simp only [List.length_drop, List.length_append, List.length_cons,
      List.length_nil]
    omega

theorem mem_queue_append_self (q : List NotificationMessage)
    (m : NotificationMessage) : m ∈ queue_append q m := by
  rw [queue_append_eq]
  have hle : (q ++ [m]).length - 100 ≤ q.length := by
    simp only [List.length_append, List.length_cons, List.length_nil]
    omega
  rw [List.drop_append_of_le_length hle]
  simp

/-! ## More association map lemmas -/

theorem aerase_eq_filter {α β : Type} [DecidableEq α] (d : AListM α β) (k : α) :
    aerase d k = d.filter (fun kv => decide (kv.1 ≠ k)) := by
  induction d with
  | nil => rfl
  | cons hd t ih =>
    obtain ⟨k', v'⟩ := hd
    by_cases h : k' = k <;> simp [aerase, h, List.filter_cons, ih]

theorem akeys_aerase {α β : Type} [DecidableEq α] (d : AListM α β) (k : α) :
    akeys (aerase d k) = (akeys d).filter (fun a => decide (a ≠ k)) := by
  induction d with
  | nil => rfl
  | cons hd t ih =>
    obtain ⟨k', v'⟩ := hd
    by_cases h : k' = k <;>
      simp [aerase, h, akeys_cons, List.filter_cons, ih]

theorem aerase_nil_keys {α β : Type} [DecidableEq α] (d : AListM α β) (k : α)
    (h : aerase d k = []) : ∀ kv ∈ d, kv.1 = k := by
  induction d with
  | nil => simp
  | cons hd t ih =>
    obtain ⟨k', v'⟩ := hd
    by_cases h2 : k' = k
    · subst h2
      simp only [aerase, if_pos rfl] at h
      intro kv hkv
      rcases List.mem_cons.mp hkv with h3 | h3
      · rw [h3]
      · exact ih h kv h3
    · simp [aerase, h2] at h

/-! ## Frame lemmas for disconnect -/

theorem disconnect_active_subs (s : Manager) (u cid : String) :
    (disconnect_active s u cid).subscriptions = s.subscriptions := by
  unfold disconnect_active
  repeat' split
  all_goals rfl

theorem disconnect_active_mq (s : Manager) (u cid : String) :
    (disconnect_active s u cid).message_queue = s.message_queue := by
  unfold disconnect_active
  repeat' split
  all_goals rfl

theorem disconnect_active_uc (s : Manager) (u cid : String) :
    (disconnect_active s u cid).user_connections = s.user_connections := by
  unfold disconnect_active
  repeat' split
  all_goals rfl

theorem disconnect_active_rc (s : Manager) (u cid : String) :
    (disconnect_active s u cid).robot_connections = s.robot_connections := by
  unfold disconnect_active
  repeat' split
  all_goals rfl

theorem disconnect_robot_frame (s : Manager) (cid : String) (rid : Option String) :
    (disconnect_robot s cid rid).active_connections = s.active_connections ∧
    (disconnect_robot s cid rid).user_connections = s.user_connections ∧
    (disconnect_robot s cid rid).subscriptions = s.subscriptions ∧
    (disconnect_robot s cid rid).user_metadata = s.user_metadata ∧
    (disconnect_robot s cid rid).message_queue = s.message_queue := by
  unfold disconnect_robot
  repeat' split
  all_goals exact ⟨rfl, rfl, rfl, rfl, rfl⟩

theorem disconnect_subscriptions (s : Manager) (u cid : String) (rid : Option String) :
    (disconnect s u cid rid).subscriptions = s.subscriptions := by
  unfold disconnect
  rw [(disconnect_robot_frame _ _ _).2.2.1]
  exact disconnect_active_subs s u cid

theorem disconnect_message_queue (s : Manager) (u cid : String) (rid : Option String) :
    (disconnect s u cid rid).message_queue = s.message_queue := by
  unfold disconnect
  rw [(disconnect_robot_frame _ _ _).2.2.2.2]
  exact disconnect_active_mq s u cid

theorem disconnect_active_connections (s : Manager) (u cid : String)
    (rid : Option String) :
    (disconnect s u cid rid).active_connections =
      (disconnect_active s u cid).active_connections := by
  unfold disconnect
  rw [(disconnect_robot_frame _ _ _).1]

theorem disconnect_user_metadata_eq (s : Manager) (u cid : String)
    (rid : Option String) :
    (disconnect s u cid rid).user_metadata =
      (disconnect_active s u cid).user_metadata := by
  unfold disconnect
  rw [(disconnect_robot_frame _ _ _).2.2.2.1]

/-- Characterization of the active map at the disconnected user. -/
theorem alookup_disconnect_self (s : Manager) (u cid : String) (rid : Option String) :
    alookup (disconnect s u cid rid).active_connections u =
      (match alookup s.active_connections u with
       | none => none
       | some conns =>
         if (alookup conns cid).isSome then
           (if (aerase conns cid).isEmpty then none else some (aerase conns cid))
         else some conns) := by
  rw [disconnect_active_connections]
  unfold disconnect_active
  cases h : alookup s.active_connections u with
  | none => simp [h]
  | some conns =>
    simp only [h]
    by_cases h2 : (alookup conns cid).isSome
    · rw [if_pos h2, if_pos h2]
      by_cases h3 : (aerase conns cid).isEmpty
      · simp only [h3, if_pos, if_true]
        simp [alookup_aerase_self]
      · simp only [h3, if_false, Bool.false_eq_true]
        simp [alookup_ainsert_self]
    · rw [if_neg h2, if_neg h2]
      exact h

theorem alookup_disconnect_some (s : Manager) (u cid : String) (rid : Option String)
    (conns : AListM String WS) (h : alookup s.active_connections u = some conns) :
    alookup (disconnect s u cid rid).active_connections u =
      (if (alookup conns cid).isSome then
        (if (aerase conns cid).isEmpty then none else some (aerase conns cid))
      else some conns) := by
  rw [alookup_disconnect_self, h]

theorem alookup_disconnect_ne (s : Manager) (u cid : String) (rid : Option String)
    (v : String) (h : v ≠ u) :
    alookup (disconnect s u cid rid).active_connections v =
      alookup s.active_connections v := by
  rw [disconnect_active_connections]
  unfold disconnect_active
  cases h2 : alookup s.active_connections u with
  | none => rfl
  | some conns =>
    simp only [h2]
    by_cases h3 : (alookup conns cid).isSome
    · rw [if_pos h3]
      by_cases h4 : (aerase conns cid).isEmpty
      · simp only [h4, if_true]
        exact alookup_aerase_ne _ _ _ h
      · simp only [h4, Bool.false_eq_true, if_false]
        exact alookup_ainsert_ne _ _ _ _ h
    · rw [if_neg h3]

theorem alookup_disconnect_none (s : Manager) (u cid : String) (rid : Option String)
    (w : String) (h : alookup s.active_connections w = none) :
    alookup (disconnect s u cid rid).active_connections w = none := by
  by_cases h2 : w = u
  · subst h2
    rw [alookup_disconnect_self, h]
  · rw [alookup_disconnect_ne s u cid rid w h2]
    exact h

/-! ## The fan-out loop of send_to_user_enhanced -/

theorem meta_set_activity_idem (md : AListM String Metadata) (u now : String) :
    meta_set_activity (meta_set_activity md u now) u now =
      meta_set_activity md u now := by
  unfold meta_set_activity
  cases h : alookup md u with
  | none => simp [h]
  | some v =>
    simp only [h]
    rw [show alookup (ainsert md u { v with last_activity := now }) u =
        some { v with last_activity := now } from alookup_ainsert_self _ _ _]
    exact ainsert_eq_self _ _ _ (alookup_ainsert_self _ _ _)

theorem send_loop_spec (u now : String) (m : NotificationMessage) :
    ∀ (conns : List (String × WS)) (s : Manager) (tr : List Attempt)
      (dis : List String),
      send_loop u now m (s, tr, dis) conns =
        ({ s with user_metadata :=
             if conns.any (fun cw => cw.2.ok) then
               meta_set_activity s.user_metadata u now
             else s.user_metadata },
         tr ++ conns.map (fun cw => ⟨cw.1, m, cw.2.ok⟩),
         dis ++ (conns.filter (fun cw => !cw.2.ok)).map (fun cw => cw.1)) := by
  intro conns
  induction conns with
  | nil => intro s tr dis; simp [send_loop]
  | cons cw rest ih =>
    intro s tr dis
    obtain ⟨cid, ws⟩ := cw
    cases hok : ws.ok with
    | true =>
      rw [show send_loop u now m (s, tr, dis) ((cid, ws) :: rest) =
          send_loop u now m
            ({ s with user_metadata := meta_set_activity s.user_metadata u now },
             tr ++ [⟨cid, m, true⟩], dis) rest from by
        simp [send_loop, send_text, hok]]
      rw [ih]
      by_cases h2 : rest.any (fun cw => cw.2.ok) <;>
        simp [h2, hok, meta_set_activity_idem, List.filter_cons]
    | false =>
      rw [show send_loop u now m (s, tr, dis) ((cid, ws) :: rest) =
          send_loop u now m (s, tr ++ [⟨cid, m, false⟩], dis ++ [cid]) rest from by
        simp [send_loop, send_text, hok]]
      rw [ih]
      rw [List.any_cons, hok, Bool.false_or]
      simp [List.filter_cons, hok]

/-! ## The cleanup fold of send_to_user_enhanced -/

theorem mem_akeys_of_mem {α β : Type} (d : AListM α β) (kv : α × β) (h : kv ∈ d) :
    kv.1 ∈ akeys d :=
  List.mem_map_of_mem _ h

theorem keys_nodup_inj {α β : Type} (d : AListM α β) (hnd : (akeys d).Nodup)
    (a b : α × β) (ha : a ∈ d) (hb : b ∈ d) (hk : a.1 = b.1) : a = b := by
  induction d with
  | nil => simp at ha
  | cons hd t ih =>
    rw [akeys_cons (hd.1) (hd.2) t] at hnd
    rw [List.nodup_cons] at hnd
    rcases List.mem_cons.mp ha with h1 | h1 <;>
      rcases List.mem_cons.mp hb with h2 | h2
    · rw [h1, h2]
    · exfalso
      apply hnd.1
      rw [← h1, hk]
      exact mem_akeys_of_mem t b h2
    · exfalso
      apply hnd.1
      rw [← h2, ← hk]
      exact mem_akeys_of_mem t a h1
    · exact ih hnd.2 h1 h2

theorem isSome_alookup_of_mem {α β : Type} [DecidableEq α] (d : AListM α β)
    (kv : α × β) (h : kv ∈ d) : (alookup d kv.1).isSome :=
  (mem_akeys_iff d kv.1).mp (mem_akeys_of_mem d kv h)

theorem disconnect_foldl_keeps_none (v : String) (cids : List String) :
    ∀ (s : Manager) (u : String), alookup s.active_connections u = none →
      alookup ((cids.foldl (fun s c => disconnect s v c none) s)).active_connections u
        = none := by
  induction cids with
  | nil => intro s u h; exact h
  | cons c cs ih =>
    intro s u h
    rw [List.foldl_cons]
    exact ih _ _ (alookup_disconnect_none s v c none u h)

theorem disconnect_foldl_ne (v : String) (cids : List String) :
    ∀ (s : Manager) (u : String), u ≠ v →
      alookup ((cids.foldl (fun s c => disconnect s v c none) s)).active_connections u
        = alookup s.active_connections u := by
  induction cids with
  | nil => intro s u _; rfl
  | cons c cs ih =>
    intro s u h
    rw [List.foldl_cons, ih _ _ h]
    exact alookup_disconnect_ne s v c none u h

theorem disconnect_foldl_frame (v : String) (cids : List String) :
    ∀ s : Manager,
      ((cids.foldl (fun s c => disconnect s v c none) s)).message_queue
          = s.message_queue ∧
      ((cids.foldl (fun s c => disconnect s v c none) s)).subscriptions
          = s.subscriptions := by
  induction cids with
  | nil => intro s; exact ⟨rfl, rfl⟩
  | cons c cs ih =>
    intro s
    rw [List.foldl_cons]
    refine ⟨?_, ?_⟩
    · rw [(ih _).1, disconnect_message_queue]
    · rw [(ih _).2, disconnect_subscriptions]

theorem disconnect_foldl_lookup (u : String) (cids : List String) :
    ∀ (s : Manager) (conns : AListM String WS),
      alookup s.active_connections u = some conns → (akeys conns).Nodup →
      conns ≠ [] →
      alookup ((cids.foldl (fun s c => disconnect s u c none) s)).active_connections u
        = (if (conns.filter (fun cw => decide (cw.1 ∉ cids))).isEmpty then none
           else some (conns.filter (fun cw => decide (cw.1 ∉ cids)))) := by
  induction cids with
  | nil =>
    intro s conns h hnd hne
    have h1 : conns.filter (fun cw => decide (cw.1 ∉ ([] : List String))) = conns := by
      apply List.filter_eq_self.mpr
      intro a _
      simp
    have h2 : conns.isEmpty = false := List.isEmpty_eq_false.mpr hne
    rw [List.foldl_nil, h1, h, h2]
    simp
  | cons c cs ih =>
    intro s conns h hnd hne
    rw [List.foldl_cons]
    have hd := alookup_disconnect_some s u c none conns h
    by_cases hc : (alookup conns c).isSome
    · rw [if_pos hc] at hd
      by_cases he : (aerase conns c).isEmpty
      · rw [if_pos he] at hd
        rw [disconnect_foldl_keeps_none u cs _ u hd]
        have hall : ∀ kv ∈ conns, kv.1 = c :=
          aerase_nil_keys conns c (List.isEmpty_iff.mp he)
        have h1 : conns.filter (fun cw => decide (cw.1 ∉ c :: cs)) = [] := by
          apply List.filter_eq_nil_iff.mpr
          intro a ha
          simp [hall a ha]
        rw [h1]
        simp
      · rw [if_neg he] at hd
        have hnd2 : (akeys (aerase conns c)).Nodup := by
          rw [akeys_aerase]
          exact hnd.filter _
        have hne2 : aerase conns c ≠ [] := List.isEmpty_eq_false.mp (by
          cases h3 : (aerase conns c).isEmpty
          · rfl
          · exact absurd h3 he)
        rw [ih _ _ hd hnd2 hne2]
        have hfilter : (aerase conns c).filter (fun cw => decide (cw.1 ∉ cs)) =
            conns.filter (fun cw => decide (cw.1 ∉ c :: cs)) := by
          rw [aerase_eq_filter, List.filter_filter]
          apply List.filter_congr
          intro a _
          by_cases h1 : a.1 = c
          · simp [h1, List.mem_cons]
          · by_cases h2 : a.1 ∈ cs <;> simp [h1, h2, List.mem_cons]
        rw [hfilter]
    · rw [if_neg hc] at hd
      rw [ih _ _ hd hnd hne]
      have hceq : conns.filter (fun cw => decide (cw.1 ∉ cs)) =
          conns.filter (fun cw => decide (cw.1 ∉ c :: cs)) := by
        apply List.filter_congr
        intro a ha
        have h1 : a.1 ≠ c := by
          intro h2
          apply hc
          rw [← h2]
          exact isSome_alookup_of_mem conns a ha
        by_cases h2 : a.1 ∈ cs <;> simp [h1, h2, List.mem_cons]
      rw [hceq]

/-! ## Characterization of send_to_user_enhanced -/

theorem send_to_user_offline (s : Manager) (u : String) (m : NotificationMessage)
    (now : String) (h : alookup s.active_connections u = none) :
    send_to_user_enhanced s u m now =
      (queue_message s u { m with user_id := some u }, [], none) := by
  unfold send_to_user_enhanced
  rw [h]

theorem send_to_user_online_eq (s : Manager) (u : String) (m : NotificationMessage)
    (now : String) (conns : AListM String WS)
    (h : alookup s.active_connections u = some conns) :
    send_to_user_enhanced s u m now =
      ((send_loop u now { m with user_id := some u } (s, [], []) conns).2.2.foldl
         (fun s c => disconnect s u c none)
         (send_loop u now { m with user_id := some u } (s, [], []) conns).1,
       (send_loop u now { m with user_id := some u } (s, [], []) conns).2.1,
       none) := by
  unfold send_to_user_enhanced
  rw [h]

theorem send_to_user_online (s : Manager) (u : String) (m : NotificationMessage)
    (now : String) (conns : AListM String WS)
    (h : alookup s.active_connections u = some conns)
    (hnd : (akeys conns).Nodup) (hne : conns ≠ []) :
    (send_to_user_enhanced s u m now).2.1 =
        conns.map (fun cw => ⟨cw.1, { m with user_id := some u }, cw.2.ok⟩) ∧
    (send_to_user_enhanced s u m now).2.2 = none ∧
    alookup (send_to_user_enhanced s u m now).1.active_connections u =
        (if (conns.filter (fun cw => cw.2.ok)).isEmpty then none
         else some (conns.filter (fun cw => cw.2.ok))) ∧
    (∀ v, v ≠ u →
      alookup (send_to_user_enhanced s u m now).1.active_connections v =
        alookup s.active_connections v) ∧
    (send_to_user_enhanced s u m now).1.message_queue = s.message_queue := by
  rw [send_to_user_online_eq s u m now conns h]
  rw [send_loop_spec u now { m with user_id := some u } conns s [] []]
  simp only [List.nil_append]
  set s1 : Manager :=
    { s with user_metadata :=
        if conns.any (fun cw => cw.2.ok) then
          meta_set_activity s.user_metadata u now
        else s.user_metadata } with hs1
  have hs1a : s1.active_connections = s.active_connections := rfl
  have hs1q : s1.message_queue = s.message_queue := rfl
  set cids : List String := (conns.filter (fun cw => !cw.2.ok)).map (fun cw => cw.1)
    with hcids
  refine ⟨trivial, trivial, ?_, ?_, ?_⟩
  · have h1 : alookup s1.active_connections u = some conns := by rw [hs1a]; exact h
    rw [disconnect_foldl_lookup u cids s1 conns h1 hnd hne]
    have h2 : conns.filter (fun cw => decide (cw.1 ∉ cids)) =
        conns.filter (fun cw => cw.2.ok) := by
      apply List.filter_congr
      intro a ha
      by_cases hok : a.2.ok
      · have h3 : a.1 ∉ cids := by
          rw [hcids]
          intro h4
          rcases List.mem_map.mp h4 with ⟨b, hb1, hb2⟩
          have hb3 := List.mem_filter.mp hb1
          have := keys_nodup_inj conns hnd b a hb3.1 ha hb2
          rw [this] at hb3
          rw [hok] at hb3
          simp at hb3
        simp [h3, hok]
      · have h3 : a.1 ∈ cids := by
          rw [hcids]
          apply List.mem_map_of_mem
          apply List.mem_filter.mpr
          refine ⟨ha, ?_⟩
          simp [Bool.not_eq_true] at hok
          simp [hok]
        simp [h3, hok]
    rw [h2]
  · intro v hv
    rw [disconnect_foldl_ne u cids s1 v hv, hs1a]
  · rw [(disconnect_foldl_frame u cids s1).1, hs1q]

theorem send_to_user_ret_none (s : Manager) (u : String) (m : NotificationMessage)
    (now : String) : (send_to_user_enhanced s u m now).2.2 = none := by
  unfold send_to_user_enhanced
  cases h : alookup s.active_connections u with
  | none => rfl
  | some conns => rfl

/-! ## Example values used by witnesses -/

/-- A sample notification message. -/
def msgA : NotificationMessage :=
  ⟨MessageType.TRAINING_PROGRESS, [("progress", "p")], "t0", 7, none⟩

/-- A second sample notification message. -/
def msgB : NotificationMessage :=
  ⟨MessageType.ROBOT_STATE_UPDATE, [("robot_id", "r")], "t0", 8, none⟩

/-! ## Claim C1 -/

/-- C1: For every user and every message, `send_to_user_enhanced` attempts
    a write to every live connection of that user, in registry order; a
    raising write is caught, marked failed in the trace, and exactly the
    failing connections are unregistered while every healthy connection
    still receives the message; connections of other users are untouched,
    and the call returns normally with the Python return value `None`
    (no exception reaches the caller, and `broadcast_enhanced` and the
    notify facade merely iterate this total function). -/
theorem C1_send_failure_isolated (s : Manager) (u : String)
    (m : NotificationMessage) (now : String) (conns : AListM String WS)
    (h : alookup s.active_connections u = some conns)
    (hnd : (akeys conns).Nodup) (hne : conns ≠ []) :
    (send_to_user_enhanced s u m now).2.1 =
        conns.map (fun cw => ⟨cw.1, { m with user_id := some u }, cw.2.ok⟩) ∧
    (∀ cw ∈ conns, cw.2.ok = true →
        (⟨cw.1, { m with user_id := some u }, true⟩ : Attempt) ∈
          (send_to_user_enhanced s u m now).2.1) ∧
    alookup (send_to_user_enhanced s u m now).1.active_connections u =
        (if (conns.filter (fun cw => cw.2.ok)).isEmpty then none
         else some (conns.filter (fun cw => cw.2.ok))) ∧
    (∀ v, v ≠ u →
        alookup (send_to_user_enhanced s u m now).1.active_connections v =
          alookup s.active_connections v) ∧
    (send_to_user_enhanced s u m now).2.2 = none := by
  obtain ⟨h1, h2, h3, h4, h5⟩ := send_to_user_online s u m now conns h hnd hne
  refine ⟨h1, ?_, h3, h4, h2⟩
  intro cw hcw hok
  rw [h1]
  exact List.mem_map.mpr ⟨cw, hcw, by rw [hok]⟩

/-- Example state for the C1 witness: user `u` with a healthy, a broken
    and another healthy connection; a bystander user `v`. -/
def mgrC1 : Manager :=
  ⟨[("u", [("c1", ⟨1, true⟩), ("c2", ⟨2, false⟩), ("c3", ⟨3, true⟩)]),
    ("v", [("d1", ⟨4, true⟩)])],
   [("u", ["c1", "c2", "c3"]), ("v", ["d1"])], [], [],
   [("u", ⟨"t0", "t0", 3⟩), ("v", ⟨"t0", "t0", 1⟩)], []⟩

theorem C1_send_failure_isolated_witness :
    (send_to_user_enhanced mgrC1 "u" msgA "t1").2.1 =
      [⟨"c1", { msgA with user_id := some "u" }, true⟩,
       ⟨"c2", { msgA with user_id := some "u" }, false⟩,
       ⟨"c3", { msgA with user_id := some "u" }, true⟩] ∧
    (⟨"c3", { msgA with user_id := some "u" }, true⟩ : Attempt) ∈
      (send_to_user_enhanced mgrC1 "u" msgA "t1").2.1 ∧
    alookup (send_to_user_enhanced mgrC1 "u" msgA "t1").1.active_connections "u" =
      some [("c1", ⟨1, true⟩), ("c3", ⟨3, true⟩)] ∧
    alookup (send_to_user_enhanced mgrC1 "u" msgA "t1").1.active_connections "v" =
      alookup mgrC1.active_connections "v" ∧
    (send_to_user_enhanced mgrC1 "u" msgA "t1").2.2 = none := by
  have h := C1_send_failure_isolated mgrC1 "u" msgA "t1"
    [("c1", ⟨1, true⟩), ("c2", ⟨2, false⟩), ("c3", ⟨3, true⟩)]
    (by decide) (by decide) (by decide)
  refine ⟨by rw [h.1]; rfl, ?_, ?_, h.2.2.2.1 "v" (by decide), h.2.2.2.2⟩
  · exact h.2.1 ("c3", ⟨3, true⟩) (by decide) (by decide)
  · rw [h.2.2.1]
    rfl

/-! ## Drain lemmas (connect and _send_queued_messages) -/

theorem ainsert_nil {α β : Type} [DecidableEq α] (k : α) (v : β) :
    ainsert ([] : AListM α β) k v = [(k, v)] := rfl

theorem send_queued_none (s : Manager) (u : String)
    (h : alookup s.message_queue u = none) :
    send_queued_messages s u = (s, []) := by
  unfold send_queued_messages
  rw [h]

theorem send_queued_spec (s : Manager) (u : String) (conns : AListM String WS)
    (q : List NotificationMessage)
    (ha : alookup s.active_connections u = some conns)
    (hq : alookup s.message_queue u = some q) :
    send_queued_messages s u =
      ({ s with message_queue := aerase s.message_queue u },
       q.foldl (fun tr m => tr ++ queued_inner conns m) []) := by
  unfold send_queued_messages
  rw [hq]
  simp only [ha]

theorem queued_inner_singleton_ok (cid : String) (ws : WS)
    (m : NotificationMessage) (hok : ws.ok = true) :
    queued_inner [(cid, ws)] m = [⟨cid, m, true⟩] := by
  simp [queued_inner, send_text, hok]

theorem foldl_append_map (q : List NotificationMessage)
    (f : NotificationMessage → Attempt) :
    ∀ acc : List Attempt,
      q.foldl (fun tr m => tr ++ [f m]) acc = acc ++ q.map f := by
  induction q with
  | nil => intro acc; simp
  | cons m ms ih =>
    intro acc
    rw [List.foldl_cons, ih]
    simp

theorem connect_unfold (s : Manager) (ws : WS) (u cid now : String) (mid : Nat) :
    connect s ws u cid none now mid =
      (let conns := ainsert ((alookup s.active_connections u).getD []) cid ws
       let l0 := (alookup s.user_connections u).getD []
       let sB : Manager :=
         { s with active_connections := ainsert s.active_connections u conns,
                  user_connections := ainsert s.user_connections u
                    (if cid ∈ l0 then l0 else l0 ++ [cid]),
                  user_metadata := ainsert s.user_metadata u ⟨now, now, conns.length⟩ }
       let r1 := send_queued_messages sB u
       let r2 := send_to_user_enhanced r1.1 u (user_connected_message u cid now mid) now
       (r2.1, cid, r1.2 ++ r2.2.1)) := rfl

/-- Registration of a first connection for an offline user `u`, followed
    by the queue drain and the confirmation send: the delivery trace is
    the queued messages in FIFO order, then the confirmation, and the
    queue entry for `u` is gone. -/
theorem connect_drain (s : Manager) (ws : WS) (u cid now : String) (mid : Nat)
    (q : List NotificationMessage)
    (hoff : alookup s.active_connections u = none)
    (hq : alookup s.message_queue u = some q) (hok : ws.ok = true) :
    (connect s ws u cid none now mid).2.2 =
      q.map (fun mm => (⟨cid, mm, true⟩ : Attempt)) ++
        [⟨cid, { user_connected_message u cid now mid with user_id := some u },
          true⟩] ∧
    alookup (connect s ws u cid none now mid).1.message_queue u = none := by
  rw [connect_unfold]
  simp only [hoff, Option.getD_none, ainsert_nil]
  set l0 : List String := (alookup s.user_connections u).getD [] with hl0
  set sB : Manager :=
    { s with active_connections := ainsert s.active_connections u [(cid, ws)],
             user_connections := ainsert s.user_connections u
               (if cid ∈ l0 then l0 else l0 ++ [cid]),
             user_metadata := ainsert s.user_metadata u
               ⟨now, now, ([(cid, ws)] : AListM String WS).length⟩ } with hsB
  have hBa : alookup sB.active_connections u = some [(cid, ws)] := by
    rw [hsB]
    exact alookup_ainsert_self _ _ _
  have hBq : alookup sB.message_queue u = some q := hq
  have h1 := send_queued_spec sB u [(cid, ws)] q hBa hBq
  rw [h1]
  have hfun : (fun (tr : List Attempt) m => tr ++ queued_inner [(cid, ws)] m) =
      (fun tr m => tr ++ [(⟨cid, m, true⟩ : Attempt)]) := by
    funext tr m
    rw [queued_inner_singleton_ok cid ws m hok]
  rw [hfun, foldl_append_map q _ []]
  set sE : Manager := { sB with message_queue := aerase sB.message_queue u }
    with hsE
  have hEa : alookup sE.active_connections u = some [(cid, ws)] := hBa
  have h2 := send_to_user_online sE u (user_connected_message u cid now mid) now
    [(cid, ws)] hEa (by simp [akeys_cons, akeys_nil]) (by simp)
  refine ⟨?_, ?_⟩
  · rw [h2.1]
    simp [hok]
  · rw [h2.2.2.2.2]
    rw [hsE]
    exact alookup_aerase_self _ _

/-! ## Claim C2 -/

/-- C2: Publishing to a user with zero live connections queues the
    message (nothing is sent) at the tail of that user queue; on the next
    register of that user with a healthy transport, every queued message
    is delivered in FIFO order followed by the connection confirmation,
    after which the queue entry is gone; a further drain for a user with
    no queue entry delivers nothing and changes nothing. -/
theorem C2_offline_queue_fifo (s s2 : Manager) (u cid : String) (ws : WS)
    (m : NotificationMessage) (now : String) (mid : Nat)
    (q : List NotificationMessage) :
    (alookup s.active_connections u = none →
      (send_to_user_enhanced s u m now).2.1 = [] ∧
      alookup (send_to_user_enhanced s u m now).1.message_queue u =
        some (queue_append ((alookup s.message_queue u).getD [])
          { m with user_id := some u })) ∧
    (alookup s.active_connections u = none →
     alookup s.message_queue u = some q → ws.ok = true →
      (connect s ws u cid none now mid).2.2 =
        q.map (fun mm => (⟨cid, mm, true⟩ : Attempt)) ++
          [⟨cid, { user_connected_message u cid now mid with user_id := some u },
            true⟩] ∧
      alookup (connect s ws u cid none now mid).1.message_queue u = none) ∧
    (alookup s2.message_queue u = none → send_queued_messages s2 u = (s2, [])) := by
  refine ⟨?_, ?_, send_queued_none s2 u⟩
  · intro hoff
    rw [send_to_user_offline s u m now hoff]
    refine ⟨rfl, ?_⟩
    exact alookup_ainsert_self _ _ _
  · intro hoff hq hok
    exact connect_drain s ws u cid now mid q hoff hq hok

/-- Example state for the C2 witness: user `w` offline with two queued
    messages. -/
def mgrC2 : Manager := ⟨[], [], [], [], [], [("w", [msgA, msgB])]⟩

theorem C2_offline_queue_fifo_witness :
    ((send_to_user_enhanced mgrC2 "w" msgB "t1").2.1 = [] ∧
      alookup (send_to_user_enhanced mgrC2 "w" msgB "t1").1.message_queue "w" =
        some (queue_append ((alookup mgrC2.message_queue "w").getD [])
          { msgB with user_id := some "w" })) ∧
    ((connect mgrC2 ⟨9, true⟩ "w" "c9" none "t1" 11).2.2 =
        [msgA, msgB].map (fun mm => (⟨"c9", mm, true⟩ : Attempt)) ++
          [⟨"c9", { user_connected_message "w" "c9" "t1" 11 with
            user_id := some "w" }, true⟩] ∧
      alookup (connect mgrC2 ⟨9, true⟩ "w" "c9" none "t1" 11).1.message_queue "w" =
        none) ∧
    (send_queued_messages (connect mgrC2 ⟨9, true⟩ "w" "c9" none "t1" 11).1 "w" =
      ((connect mgrC2 ⟨9, true⟩ "w" "c9" none "t1" 11).1, [])) := by
  have h := C2_offline_queue_fifo mgrC2
    (connect mgrC2 ⟨9, true⟩ "w" "c9" none "t1" 11).1 "w" "c9" ⟨9, true⟩
    msgB "t1" 11 [msgA, msgB]
  have h2 := h.2.1 (by decide) (by decide) (by decide)
  exact ⟨h.1 (by decide), h2, h.2.2 h2.2⟩

/-! ## The presence invariant -/

/-- A user id never maps to an empty connection set. -/
def presence_inv (s : Manager) : Prop :=
  ∀ u l, alookup s.active_connections u = some l → l ≠ []

theorem presence_inv_of_active_eq (s s2 : Manager)
    (heq : s2.active_connections = s.active_connections)
    (h : presence_inv s) : presence_inv s2 := by
  intro v l hl
  apply h v l
  rw [← heq]
  exact hl

theorem presence_inv_disconnect (s : Manager) (u cid : String)
    (rid : Option String) (h : presence_inv s) :
    presence_inv (disconnect s u cid rid) := by
  intro v l hl
  by_cases hv : v = u
  · subst hv
    cases h2 : alookup s.active_connections v with
    | none =>
      rw [alookup_disconnect_none s v cid rid v h2] at hl
      exact absurd hl (by simp)
    | some conns =>
      rw [alookup_disconnect_some s v cid rid conns h2] at hl
      by_cases h3 : (alookup conns cid).isSome
      · rw [if_pos h3] at hl
        by_cases h4 : (aerase conns cid).isEmpty
        · rw [if_pos h4] at hl
          exact absurd hl (by simp)
        · rw [if_neg h4] at hl
          have h5 := Option.some.inj hl
          rw [← h5]
          exact List.isEmpty_eq_false.mp (by
            cases h6 : (aerase conns cid).isEmpty
            · rfl
            · exact absurd h6 h4)
      · rw [if_neg h3] at hl
        have h5 := Option.some.inj hl
        rw [← h5]
        exact h v conns h2
  · rw [alookup_disconnect_ne s u cid rid v hv] at hl
    exact h v l hl

theorem presence_inv_disconnect_foldl (v : String) (cids : List String) :
    ∀ s : Manager, presence_inv s →
      presence_inv (cids.foldl (fun s c => disconnect s v c none) s) := by
  induction cids with
  | nil => intro s h; exact h
  | cons c cs ih =>
    intro s h
    rw [List.foldl_cons]
    exact ih _ (presence_inv_disconnect s v c none h)

theorem presence_inv_send (s : Manager) (u : String) (m : NotificationMessage)
    (now : String) (h : presence_inv s) :
    presence_inv (send_to_user_enhanced s u m now).1 := by
  cases ha : alookup s.active_connections u with
  | none =>
    rw [send_to_user_offline s u m now ha]
    exact presence_inv_of_active_eq _ _ rfl h
  | some conns =>
    rw [send_to_user_online_eq s u m now conns ha]
    rw [send_loop_spec u now _ conns s [] []]
    dsimp only
    apply presence_inv_disconnect_foldl
    exact presence_inv_of_active_eq _ _ rfl h

theorem send_queued_frame (s : Manager) (u : String) :
    (send_queued_messages s u).1.active_connections = s.active_connections ∧
    (send_queued_messages s u).1.user_connections = s.user_connections ∧
    (send_queued_messages s u).1.subscriptions = s.subscriptions ∧
    (send_queued_messages s u).1.user_metadata = s.user_metadata := by
  unfold send_queued_messages
  cases alookup s.message_queue u <;> exact ⟨rfl, rfl, rfl, rfl⟩

theorem connect_unfold_gen (s : Manager) (ws : WS) (u cid : String)
    (rid : Option String) (now : String) (mid : Nat) :
    connect s ws u cid rid now mid =
      (let conns := ainsert ((alookup s.active_connections u).getD []) cid ws
       let l0 := (alookup s.user_connections u).getD []
       let sB : Manager :=
         { s with active_connections := ainsert s.active_connections u conns,
                  user_connections := ainsert s.user_connections u
                    (if cid ∈ l0 then l0 else l0 ++ [cid]),
                  user_metadata := ainsert s.user_metadata u ⟨now, now, conns.length⟩ }
       let sC : Manager :=
         match rid with
         | some r => { sB with robot_connections := ainsert sB.robot_connections r cid }
         | none => sB
       let r1 := send_queued_messages sC u
       let r2 := send_to_user_enhanced r1.1 u (user_connected_message u cid now mid) now
       (r2.1, cid, r1.2 ++ r2.2.1)) := by
  cases rid <;> rfl

theorem presence_inv_connect (s : Manager) (ws : WS) (u cid : String)
    (rid : Option String) (now : String) (mid : Nat) (h : presence_inv s) :
    presence_inv (connect s ws u cid rid now mid).1 := by
  rw [connect_unfold_gen]
  dsimp only
  apply presence_inv_send
  apply presence_inv_of_active_eq _ _ (send_queued_frame _ u).1
  have hB2 : ∀ (v : String) (l : AListM String WS),
      alookup (ainsert s.active_connections u
        (ainsert ((alookup s.active_connections u).getD []) cid ws)) v = some l →
      l ≠ [] := by
    intro v l hl
    rw [alookup_ainsert] at hl
    by_cases hv : v = u
    · rw [if_pos hv] at hl
      have := Option.some.inj hl
      rw [← this]
      exact ainsert_ne_nil _ _ _
    · rw [if_neg hv] at hl
      exact h v l hl
  cases rid with
  | none => intro v l hl; exact hB2 v l hl
  | some r => intro v l hl; exact hB2 v l hl

theorem presence_inv_apply_op (s : Manager) (op : Op) (h : presence_inv s) :
    presence_inv (apply_op s op) := by
  cases op with
  | register ws u cid rid now mid => exact presence_inv_connect s ws u cid rid now mid h
  | unregister u cid rid => exact presence_inv_disconnect s u cid rid h

theorem presence_inv_run_ops (ops : List Op) :
    ∀ s : Manager, presence_inv s → presence_inv (run_ops s ops) := by
  induction ops with
  | nil => intro s h; exact h
  | cons op ops ih =>
    intro s h
    exact ih _ (presence_inv_apply_op s op h)

theorem presence_inv_init : presence_inv initManager := by
  intro u l hl
  simp [initManager, alookup] at hl

theorem disconnect_last_conn (s : Manager) (u cid : String) (rid : Option String)
    (ws : WS) (h : alookup s.active_connections u = some [(cid, ws)]) :
    (disconnect s u cid rid).active_connections = aerase s.active_connections u ∧
    (disconnect s u cid rid).user_metadata = aerase s.user_metadata u := by
  rw [disconnect_active_connections, disconnect_user_metadata_eq]
  unfold disconnect_active
  rw [h]
  simp [alookup, aerase]

/-! ## Claim C5 -/

/-- Example state for the C5 witness. -/
def mgrC5 : Manager :=
  ⟨[("u", [("c1", ⟨1, true⟩), ("c2", ⟨2, false⟩), ("c3", ⟨3, true⟩)]),
    ("v", [("d1", ⟨4, true⟩)])],
   [("u", ["c1", "c2", "c3"]), ("v", ["d1"])], [], [],
   [("u", ⟨"t0", "t0", 3⟩), ("v", ⟨"t0", "t0", 1⟩)], []⟩

/-- C5: After every sequence of register and unregister operations
    starting from a fresh manager, no user appears in the presence map
    with an empty connection set; unregistering the last connection of a
    user removes the user entirely (`stats.total_users` drops by one and
    the user id no longer resolves), while unregistering one of at least
    two connections leaves the user present. -/
theorem C5_presence_map_clean (ops : List Op) (s : Manager) (u cid : String)
    (ws : WS) (rid : Option String) (l : AListM String WS) :
    presence_inv (run_ops initManager ops) ∧
    (alookup s.active_connections u = some [(cid, ws)] →
     (akeys s.active_connections).Nodup →
      (get_connection_stats (disconnect s u cid rid)).total_users + 1 =
        (get_connection_stats s).total_users ∧
      alookup (disconnect s u cid rid).active_connections u = none) ∧
    (alookup s.active_connections u = some l → (akeys l).Nodup →
     cid ∈ akeys l → 2 ≤ l.length →
      (alookup (disconnect s u cid rid).active_connections u).isSome) := by
  refine ⟨presence_inv_run_ops ops initManager presence_inv_init, ?_, ?_⟩
  · intro h hnd
    have hd := disconnect_last_conn s u cid rid ws h
    constructor
    · show (disconnect s u cid rid).active_connections.length + 1 =
        s.active_connections.length
      rw [hd.1]
      exact length_aerase_of_mem _ _ hnd
        ((mem_akeys_iff _ _).mpr (by rw [h]; rfl))
    · rw [hd.1]
      exact alookup_aerase_self _ _
  · intro h hnd hmem hlen
    have hsome : (alookup l cid).isSome := (mem_akeys_iff l cid).mp hmem
    rw [alookup_disconnect_some s u cid rid l h, if_pos hsome]
    have hne : ¬ (aerase l cid).isEmpty = true := by
      intro hemp
      have hlen2 := length_aerase_of_mem l cid hnd hmem
      rw [List.isEmpty_iff.mp hemp] at hlen2
      simp at hlen2
      omega
    rw [if_neg hne]
    rfl

theorem C5_presence_map_clean_witness :
    presence_inv (run_ops initManager
      [Op.register ⟨1, true⟩ "a" "c1" none "t1" 0,
       Op.register ⟨2, true⟩ "a" "c2" none "t2" 1,
       Op.unregister "a" "c1" none]) ∧
    ((get_connection_stats (disconnect mgrC5 "v" "d1" none)).total_users + 1 =
        (get_connection_stats mgrC5).total_users ∧
      alookup (disconnect mgrC5 "v" "d1" none).active_connections "v" = none) ∧
    (alookup (disconnect mgrC5 "u" "c1" none).active_connections "u").isSome := by
  have h := C5_presence_map_clean
    [Op.register ⟨1, true⟩ "a" "c1" none "t1" 0,
     Op.register ⟨2, true⟩ "a" "c2" none "t2" 1,
     Op.unregister "a" "c1" none]
    mgrC5 "v" "d1" ⟨4, true⟩ none [("d1", ⟨4, true⟩)]
  have h2 := C5_presence_map_clean ([] : List Op) mgrC5 "u" "c1" ⟨1, true⟩ none
    [("c1", ⟨1, true⟩), ("c2", ⟨2, false⟩), ("c3", ⟨3, true⟩)]
  exact ⟨h.1, h.2.1 (by decide) (by decide),
    h2.2.2 (by decide) (by decide) (by decide) (by decide)⟩

/-! ## The topic invariant and claim C8 -/

/-- A topic never maps to an empty subscriber set. -/
def topic_inv (s : Manager) : Prop :=
  ∀ t l, alookup s.subscriptions t = some l → l ≠ []

theorem topic_inv_subscribe (s : Manager) (u t : String) (h : topic_inv s) :
    topic_inv (subscribe_to_topic s u t) := by
  intro t2 l hl
  unfold subscribe_to_topic at hl
  rw [alookup_ainsert] at hl
  by_cases h2 : t2 = t
  · rw [if_pos h2] at hl
    have h3 := Option.some.inj hl
    rw [← h3]
    by_cases h4 : u ∈ (alookup s.subscriptions t).getD []
    · rw [if_pos h4]
      exact List.ne_nil_of_mem h4
    · rw [if_neg h4]
      simp
  · rw [if_neg h2] at hl
    exact h t2 l hl

theorem topic_inv_unsubscribe (s : Manager) (u t : String) (h : topic_inv s) :
    topic_inv (unsubscribe_from_topic s u t) := by
  intro t2 l hl
  unfold unsubscribe_from_topic at hl
  cases hq : alookup s.subscriptions t with
  | none =>
    rw [hq] at hl
    exact h t2 l hl
  | some subs =>
    rw [hq] at hl
    dsimp only at hl
    by_cases h2 : (subs.filter (fun v => v ≠ u)).isEmpty
    · rw [if_pos h2] at hl
      by_cases h3 : t2 = t
      · rw [show alookup (aerase s.subscriptions t) t2 = none from by
          rw [h3]; exact alookup_aerase_self _ _] at hl
        exact absurd hl (by simp)
      · rw [alookup_aerase_ne _ _ _ h3] at hl
        exact h t2 l hl
    · rw [if_neg h2] at hl
      rw [alookup_ainsert] at hl
      by_cases h3 : t2 = t
      · rw [if_pos h3] at hl
        have h4 := Option.some.inj hl
        rw [← h4]
        exact List.isEmpty_eq_false.mp (by
          cases h5 : (subs.filter (fun v => v ≠ u)).isEmpty
          · rfl
          · exact absurd h5 h2)
      · rw [if_neg h3] at hl
        exact h t2 l hl

theorem topic_inv_run_tops (tops : List TOp) :
    ∀ s : Manager, topic_inv s → topic_inv (run_tops s tops) := by
  induction tops with
  | nil => intro s h; exact h
  | cons top tops ih =>
    intro s h
    cases top with
    | sub u t => exact ih _ (topic_inv_subscribe s u t h)
    | unsub u t => exact ih _ (topic_inv_unsubscribe s u t h)

theorem topic_inv_init : topic_inv initManager := by
  intro t l hl
  simp [initManager, alookup] at hl

/-- C8: After every sequence of subscribe and unsubscribe operations
    starting from a fresh manager, no topic appears in the subscription
    registry with an empty subscriber set; unsubscribing the last
    subscriber removes the topic entry entirely, and subscribing always
    leaves the topic entry present with the subscribing user in its
    non-empty subscriber set. -/
theorem C8_no_empty_topics (tops : List TOp) (s : Manager) (u t : String) :
    topic_inv (run_tops initManager tops) ∧
    (alookup s.subscriptions t = some [u] →
      alookup (unsubscribe_from_topic s u t).subscriptions t = none) ∧
    alookup (subscribe_to_topic s u t).subscriptions t ≠ none ∧
    (∀ l, alookup (subscribe_to_topic s u t).subscriptions t = some l →
      u ∈ l ∧ l ≠ []) := by
  refine ⟨topic_inv_run_tops tops initManager topic_inv_init, ?_, ?_, ?_⟩
  · intro h
    unfold unsubscribe_from_topic
    rw [h]
    dsimp only
    have h2 : (([u] : List String).filter (fun v => v ≠ u)).isEmpty = true := by
      simp
    rw [if_pos h2]
    exact alookup_aerase_self _ _
  · unfold subscribe_to_topic
    rw [alookup_ainsert_self]
    simp
  · intro l hl
    unfold subscribe_to_topic at hl
    rw [alookup_ainsert_self] at hl
    have h2 := Option.some.inj hl
    rw [← h2]
    by_cases h3 : u ∈ (alookup s.subscriptions t).getD []
    · rw [if_pos h3]
      exact ⟨h3, List.ne_nil_of_mem h3⟩
    · rw [if_neg h3]
      simp

/-- Example state for the C8 witness: topic `robots` with the single
    subscriber `a`, topic `training` with two subscribers. -/
def mgrC8 : Manager :=
  ⟨[], [], [], [("robots", ["a"]), ("training", ["a", "b"])], [], []⟩

theorem C8_no_empty_topics_witness :
    topic_inv (run_tops initManager
      [TOp.sub "a" "robots", TOp.sub "b" "robots", TOp.unsub "a" "robots",
       TOp.unsub "b" "robots"]) ∧
    alookup (unsubscribe_from_topic mgrC8 "a" "robots").subscriptions "robots" =
      none ∧
    alookup (subscribe_to_topic mgrC8 "c" "training").subscriptions "training" ≠
      none ∧
    ("c" ∈ ["a", "b", "c"] ∧ (["a", "b", "c"] : List String) ≠ []) := by
  have h := C8_no_empty_topics
    [TOp.sub "a" "robots", TOp.sub "b" "robots", TOp.unsub "a" "robots",
     TOp.unsub "b" "robots"] mgrC8 "a" "robots"
  have h2 := C8_no_empty_topics ([] : List TOp) mgrC8 "c" "training"
  refine ⟨h.1, h.2.1 (by decide), h2.2.2.1, ?_⟩
  exact h2.2.2.2 ["a", "b", "c"] (by decide)

/-! ## Metadata through connect, and claim C7 -/

theorem send_to_user_online_metadata (s : Manager) (u : String)
    (m : NotificationMessage) (now : String) (conns : AListM String WS)
    (h : alookup s.active_connections u = some conns)
    (hallok : ∀ cw ∈ conns, cw.2.ok = true) (hne : conns ≠ []) :
    (send_to_user_enhanced s u m now).1.user_metadata =
      meta_set_activity s.user_metadata u now := by
  rw [send_to_user_online_eq s u m now conns h,
    send_loop_spec u now { m with user_id := some u } conns s [] []]
  dsimp only
  have hdis : conns.filter (fun cw => !cw.2.ok) = [] :=
    List.filter_eq_nil_iff.mpr (fun a ha => by simp [hallok a ha])
  simp only [hdis, List.map_nil, List.nil_append, List.foldl_nil]
  have hany : conns.any (fun cw => cw.2.ok) = true := by
    cases conns with
    | nil => exact absurd rfl hne
    | cons a l => simp [List.any_cons, hallok a (List.mem_cons_self a l)]
  rw [if_pos hany]

theorem meta_set_activity_after_insert (md : AListM String Metadata) (u now : String)
    (v : Metadata) (hv : v.last_activity = now) :
    meta_set_activity (ainsert md u v) u now = ainsert md u v := by
  unfold meta_set_activity
  rw [alookup_ainsert_self]
  dsimp only
  have h2 : { v with last_activity := now } = v := by
    cases v
    dsimp at hv ⊢
    rw [hv]
  rw [h2]
  exact ainsert_eq_self _ _ _ (alookup_ainsert_self _ _ _)

theorem connect_metadata (s : Manager) (ws : WS) (u cid : String)
    (rid : Option String) (now : String) (mid : Nat) (hok : ws.ok = true)
    (hallok : ∀ cw ∈ (alookup s.active_connections u).getD [], cw.2.ok = true)
    (hcid : cid ∉ akeys ((alookup s.active_connections u).getD [])) :
    alookup (connect s ws u cid rid now mid).1.user_metadata u =
      some ⟨now, now, ((alookup s.active_connections u).getD []).length + 1⟩ := by
  rw [connect_unfold_gen]
  dsimp only
  set A0 : AListM String WS := (alookup s.active_connections u).getD [] with hA0
  have hconns : ainsert A0 cid ws = A0 ++ [(cid, ws)] := ainsert_of_not_mem _ _ _ hcid
  have hlen : (ainsert A0 cid ws).length = A0.length + 1 := by
    rw [hconns]
    simp
  have key : ∀ s2 : Manager,
      s2.user_metadata = ainsert s.user_metadata u ⟨now, now, A0.length + 1⟩ →
      alookup s2.active_connections u = some (A0 ++ [(cid, ws)]) →
      alookup (send_to_user_enhanced (send_queued_messages s2 u).1 u
        (user_connected_message u cid now mid) now).1.user_metadata u =
        some ⟨now, now, A0.length + 1⟩ := by
    intro s2 hmd hact
    have hq := send_queued_frame s2 u
    have hact2 : alookup (send_queued_messages s2 u).1.active_connections u =
        some (A0 ++ [(cid, ws)]) := by
      rw [hq.1]
      exact hact
    have hmd2 : (send_queued_messages s2 u).1.user_metadata =
        ainsert s.user_metadata u ⟨now, now, A0.length + 1⟩ := by
      rw [hq.2.2.2]
      exact hmd
    rw [send_to_user_online_metadata _ u _ now _ hact2 ?_ (by simp)]
    · rw [hmd2, meta_set_activity_after_insert _ _ _ _ rfl]
      exact alookup_ainsert_self _ _ _
    · intro cw hcw
      rcases List.mem_append.mp hcw with h2 | h2
      · exact hallok cw h2
      · rw [List.mem_singleton.mp h2]
        exact hok
  cases rid with
  | none =>
    apply key
    · dsimp only
      rw [hlen]
    · dsimp only
      rw [hconns]
      exact alookup_ainsert_self _ _ _
  | some r =>
    apply key
    · dsimp only
      rw [hlen]
    · dsimp only
      rw [hconns]
      exact alookup_ainsert_self _ _ _

/-- C7 (amended): presence metadata is created when the first connection
    registers and destroyed when the last connection is removed, but
    registering an additional connection for an already-present user does
    not keep the original `connected_at`: `connect` overwrites the whole
    metadata entry, so `connected_at` (and `last_activity`) are reset to
    the time of the newest registration while `connection_count` becomes
    the new connection total. -/
theorem C7_metadata_reset (s : Manager) (ws : WS) (u cid : String)
    (rid : Option String) (now : String) (mid : Nat) :
    (ws.ok = true →
     (∀ cw ∈ (alookup s.active_connections u).getD [], cw.2.ok = true) →
     cid ∉ akeys ((alookup s.active_connections u).getD []) →
      alookup (connect s ws u cid rid now mid).1.user_metadata u =
        some ⟨now, now, ((alookup s.active_connections u).getD []).length + 1⟩) ∧
    (alookup s.active_connections u = some [(cid, ws)] →
      alookup (disconnect s u cid rid).user_metadata u = none) := by
  refine ⟨fun hok hallok hcid => connect_metadata s ws u cid rid now mid hok hallok hcid, ?_⟩
  intro h
  rw [(disconnect_last_conn s u cid rid ws h).2]
  exact alookup_aerase_self _ _

/-- C7 counterexample: registering a second connection at time `t2` for a
    user first registered at `t1 ≠ t2` leaves `connected_at = t2`, not the
    first-connection time the claim promises. -/
theorem C7_counterexample :
    alookup (connect (connect initManager ⟨1, true⟩ "u" "c1" none "t1" 0).1
        ⟨2, true⟩ "u" "c2" none "t2" 1).1.user_metadata "u" =
      some ⟨"t2", "t2", 2⟩ ∧ ("t2" : String) ≠ "t1" := by
  exact ⟨by decide, by decide⟩

theorem C7_metadata_reset_witness :
    alookup (connect initManager ⟨1, true⟩ "f" "c1" none "t5" 3).1.user_metadata
        "f" = some ⟨"t5", "t5", 1⟩ ∧
    alookup (disconnect (connect initManager ⟨1, true⟩ "f" "c1" none "t5" 3).1
        "f" "c1" none).user_metadata "f" = none := by
  have h1 := C7_metadata_reset initManager ⟨1, true⟩ "f" "c1" none "t5" 3
  have h2 := C7_metadata_reset (connect initManager ⟨1, true⟩ "f" "c1" none "t5" 3).1
    ⟨1, true⟩ "f" "c1" none "t5" 3
  exact ⟨h1.1 (by decide) (by decide) (by decide), h2.2 (by decide)⟩

/-! ## Topic publish to an offline subscriber, and claim C9 -/

theorem send_to_user_keeps_offline (s : Manager) (v : String)
    (m : NotificationMessage) (now : String) (u : String)
    (h : alookup s.active_connections u = none) :
    alookup (send_to_user_enhanced s v m now).1.active_connections u = none := by
  cases ha : alookup s.active_connections v with
  | none =>
    rw [send_to_user_offline s v m now ha]
    exact h
  | some conns =>
    rw [send_to_user_online_eq s v m now conns ha,
      send_loop_spec v now { m with user_id := some v } conns s [] []]
    dsimp only
    apply disconnect_foldl_keeps_none
    exact h

theorem send_to_user_online_mq (s : Manager) (v : String)
    (m : NotificationMessage) (now : String) (conns : AListM String WS)
    (ha : alookup s.active_connections v = some conns) :
    (send_to_user_enhanced s v m now).1.message_queue = s.message_queue := by
  rw [send_to_user_online_eq s v m now conns ha,
    send_loop_spec v now { m with user_id := some v } conns s [] []]
  dsimp only
  exact ((disconnect_foldl_frame v _ _).1).trans rfl

theorem send_to_user_queue_other (s : Manager) (v : String)
    (m : NotificationMessage) (now : String) (u : String) (hne : u ≠ v) :
    alookup (send_to_user_enhanced s v m now).1.message_queue u =
      alookup s.message_queue u := by
  cases ha : alookup s.active_connections v with
  | none =>
    rw [send_to_user_offline s v m now ha]
    exact alookup_ainsert_ne _ _ _ _ hne
  | some conns =>
    rw [send_to_user_online_mq s v m now conns ha]

theorem topic_fold_queue_frame (m : NotificationMessage) (now u : String)
    (subs : List String) :
    ∀ (s : Manager) (tr : List Attempt), u ∉ subs →
      alookup ((subs.foldl
        (fun acc u2 => ((send_to_user_enhanced acc.1 u2 m now).1,
          acc.2 ++ (send_to_user_enhanced acc.1 u2 m now).2.1)) (s, tr)).1.message_queue)
        u = alookup s.message_queue u := by
  induction subs with
  | nil => intro s tr _; rfl
  | cons v rest ih =>
    intro s tr hmem
    rw [List.foldl_cons]
    have h1 : u ≠ v := fun h2 => hmem (h2 ▸ List.mem_cons_self v rest)
    rw [ih _ _ (fun h2 => hmem (List.mem_cons_of_mem v h2))]
    exact send_to_user_queue_other s v m now u h1

theorem topic_fold_queue_mem (m : NotificationMessage) (now u : String)
    (subs : List String) :
    ∀ (s : Manager) (tr : List Attempt),
      u ∈ subs → subs.Nodup → alookup s.active_connections u = none →
      { m with user_id := some u } ∈
        (alookup ((subs.foldl
          (fun acc u2 => ((send_to_user_enhanced acc.1 u2 m now).1,
            acc.2 ++ (send_to_user_enhanced acc.1 u2 m now).2.1))
          (s, tr)).1.message_queue) u).getD [] := by
  induction subs with
  | nil => intro s tr h; simp at h
  | cons v rest ih =>
    intro s tr hmem hnd hoff
    rw [List.foldl_cons]
    by_cases hveq : v = u
    · subst hveq
      have hq : alookup (send_to_user_enhanced s v m now).1.message_queue v =
          some (queue_append ((alookup s.message_queue v).getD [])
            { m with user_id := some v }) := by
        rw [send_to_user_offline s v m now hoff]
        exact alookup_ainsert_self _ _ _
      have hnotin : v ∉ rest := (List.nodup_cons.mp hnd).1
      rw [topic_fold_queue_frame m now v rest _ _ hnotin, hq]
      exact mem_queue_append_self _ _
    · have hmem2 : u ∈ rest := by
        rcases List.mem_cons.mp hmem with h2 | h2
        · exact absurd h2.symm hveq
        · exact h2
      exact ih _ _ hmem2 (List.nodup_cons.mp hnd).2
        (send_to_user_keeps_offline s v m now u hoff)

/-- C9: Unregistering a connection leaves the topic-subscription registry
    untouched, so a fully disconnected user remains subscribed; a
    subsequent publish to a topic whose subscriber set contains an
    offline user enqueues the published message into that user queue
    rather than skipping them.  Queue membership is stated up to the
    `user_id` field of the queued entry: in the source that field is a
    mutable stamp on a message object shared by the whole fan-out, which
    the send for a later subscriber overwrites in place, so only the
    other fields of the queued entry are determined by the publish. -/
theorem C9_disconnect_keeps_subscriptions (s : Manager) (u cid : String)
    (rid : Option String) (t : String) (m : NotificationMessage) (now : String) :
    (disconnect s u cid rid).subscriptions = s.subscriptions ∧
    (∀ subs, alookup s.subscriptions t = some subs → subs.Nodup → u ∈ subs →
      alookup s.active_connections u = none →
      ∃ uid : Option String, { m with user_id := uid } ∈
        (alookup (send_to_topic s t m now).1.message_queue u).getD []) := by
  refine ⟨disconnect_subscriptions s u cid rid, ?_⟩
  intro subs hsubs hnd hmem hoff
  refine ⟨some u, ?_⟩
  unfold send_to_topic
  rw [hsubs]
  exact topic_fold_queue_mem m now u subs s [] hmem hnd hoff

/-- Example state for the C9 witness: user `a` subscribed to `robots`
    with one live connection that then disconnects; `b` is a live
    co-subscriber. -/
def mgrC9 : Manager :=
  ⟨[("a", [("c1", ⟨1, true⟩)]), ("b", [("c2", ⟨2, true⟩)])],
   [("a", ["c1"]), ("b", ["c2"])], [],
   [("robots", ["a", "b"])],
   [("a", ⟨"t0", "t0", 1⟩), ("b", ⟨"t0", "t0", 1⟩)], []⟩

theorem C9_disconnect_keeps_subscriptions_witness :
    (disconnect mgrC9 "a" "c1" none).subscriptions = mgrC9.subscriptions ∧
    (∃ uid : Option String, { msgB with user_id := uid } ∈
      (alookup (send_to_topic (disconnect mgrC9 "a" "c1" none) "robots" msgB
        "t1").1.message_queue "a").getD []) := by
  have h := C9_disconnect_keeps_subscriptions (disconnect mgrC9 "a" "c1" none)
    "a" "c1" none "robots" msgB "t1"
  have h0 := C9_disconnect_keeps_subscriptions mgrC9 "a" "c1" none "robots" msgB "t1"
  exact ⟨h0.1, h.2 ["a", "b"] (by decide) (by decide) (by decide) (by decide)⟩

/-! ## Disconnect on an unregistered pair, and claim C10 -/

theorem disconnect_none_eq (s : Manager) (u cid : String) :
    disconnect s u cid none =
      { disconnect_active s u cid with
          user_connections :=
            legacy_remove (disconnect_active s u cid).user_connections u cid } := rfl

theorem legacy_remove_idem (d : AListM String (List String)) (u cid : String)
    (hnd : ∀ l, alookup d u = some l → l.Nodup) :
    legacy_remove (legacy_remove d u cid) u cid = legacy_remove d u cid := by
  by_cases hu : u = ""
  · have h0 : legacy_remove d u cid = d := by
      unfold legacy_remove
      rw [if_pos hu]
    rw [h0, h0]
  · cases hl : alookup d u with
    | none =>
      have h0 : legacy_remove d u cid = d := by
        unfold legacy_remove
        rw [if_neg hu, hl]
      rw [h0, h0]
    | some l =>
      have hnd2 := hnd l hl
      by_cases he : (l.erase cid).isEmpty
      · have h0 : legacy_remove d u cid = aerase d u := by
          unfold legacy_remove
          rw [if_neg hu, hl]
          dsimp only
          rw [if_pos he]
        rw [h0]
        unfold legacy_remove
        rw [if_neg hu, alookup_aerase_self]
      · have h0 : legacy_remove d u cid = ainsert d u (l.erase cid) := by
          unfold legacy_remove
          rw [if_neg hu, hl]
          dsimp only
          rw [if_neg he]
        rw [h0]
        unfold legacy_remove
        rw [if_neg hu, alookup_ainsert_self]
        dsimp only
        have h3 : (l.erase cid).erase cid = l.erase cid :=
          List.erase_of_not_mem (hnd2.not_mem_erase)
        rw [h3, if_neg he]
        exact ainsert_eq_self _ _ _ (alookup_ainsert_self _ _ _)

/-- C10: Unregistering a user id and connection id pair that is not
    registered (the connection id is in neither the active map entry nor
    the legacy list of that user) is a complete no-op on the manager
    state and raises no error; and unregistering the same pair twice
    gives exactly the state of
    unregistering it once (with duplicate-free legacy lists, which every
    reachable state has). -/
theorem C10_unregister_unregistered_noop (s : Manager) (u cid : String) :
    ((∀ conns, alookup s.active_connections u = some conns →
        alookup conns cid = none) →
     (∀ l, alookup s.user_connections u = some l → cid ∉ l ∧ l ≠ []) →
      disconnect s u cid none = s) ∧
    ((∀ l, alookup s.user_connections u = some l → l.Nodup) →
      disconnect (disconnect s u cid none) u cid none =
        disconnect s u cid none) := by
  constructor
  · intro h1 h2
    rw [disconnect_none_eq]
    have hA : disconnect_active s u cid = s := by
      unfold disconnect_active
      cases ha : alookup s.active_connections u with
      | none => simp [ha]
      | some conns =>
        simp only [ha]
        rw [h1 conns ha]
        simp
    rw [hA]
    have hL : legacy_remove s.user_connections u cid = s.user_connections := by
      unfold legacy_remove
      by_cases hu : u = ""
      · rw [if_pos hu]
      · rw [if_neg hu]
        cases hl : alookup s.user_connections u with
        | none => rfl
        | some l =>
          have h3 := h2 l hl
          dsimp only
          rw [List.erase_of_not_mem h3.1,
            show l.isEmpty = false from List.isEmpty_eq_false.mpr h3.2]
          simp only [Bool.false_eq_true, if_false]
          exact ainsert_eq_self _ _ _ hl
    rw [hL]
  · intro hnd
    have hA : disconnect_active (disconnect s u cid none) u cid =
        disconnect s u cid none := by
      unfold disconnect_active
      cases ha : alookup (disconnect s u cid none).active_connections u with
      | none => simp [ha]
      | some conns =>
        simp only [ha]
        have hnone : alookup conns cid = none := by
          cases hb : alookup s.active_connections u with
          | none =>
            rw [alookup_disconnect_none s u cid none u hb] at ha
            exact absurd ha (by simp)
          | some conns0 =>
            have hc := alookup_disconnect_some s u cid none conns0 hb
            rw [ha] at hc
            by_cases h3 : (alookup conns0 cid).isSome
            · rw [if_pos h3] at hc
              by_cases h4 : (aerase conns0 cid).isEmpty
              · rw [if_pos h4] at hc
                exact absurd hc (by simp)
              · rw [if_neg h4] at hc
                rw [Option.some.inj hc]
                exact alookup_aerase_self _ _
            · rw [if_neg h3] at hc
              rw [Option.some.inj hc]
              cases h5 : alookup conns0 cid with
              | none => rfl
              | some w => rw [h5] at h3; exact absurd rfl h3
        rw [hnone]
        simp
    rw [disconnect_none_eq (disconnect s u cid none) u cid, hA]
    have huc : (disconnect s u cid none).user_connections =
        legacy_remove s.user_connections u cid := by
      rw [disconnect_none_eq]
      dsimp only
      rw [disconnect_active_uc]
    have hL : legacy_remove (disconnect s u cid none).user_connections u cid =
        (disconnect s u cid none).user_connections := by
      rw [huc]
      exact legacy_remove_idem s.user_connections u cid hnd
    rw [hL]

/-- Example state for the C10 witness. -/
def mgrC10 : Manager :=
  ⟨[("a", [("c1", ⟨1, true⟩)]), ("b", [("c2", ⟨2, true⟩)])],
   [("a", ["c1"]), ("b", ["c2"])], [],
   [("robots", ["a", "b"])],
   [("a", ⟨"t0", "t0", 1⟩), ("b", ⟨"t0", "t0", 1⟩)], []⟩

theorem C10_unregister_unregistered_noop_witness :
    disconnect mgrC10 "a" "zz" none = mgrC10 ∧
    disconnect (disconnect mgrC10 "a" "c1" none) "a" "c1" none =
      disconnect mgrC10 "a" "c1" none := by
  have h1 := C10_unregister_unregistered_noop mgrC10 "a" "zz"
  have h2 := C10_unregister_unregistered_noop mgrC10 "a" "c1"
  refine ⟨h1.1 ?_ ?_, h2.2 ?_⟩
  · intro conns hc
    rw [← Option.some.inj hc]
    decide
  · intro l hl
    rw [← Option.some.inj hl]
    decide
  · intro l hl
    rw [← Option.some.inj hl]
    decide

/-! ## Claim C4: the value publish actually returns -/

/-- C4 (amended): the enhanced send returns `None` (exposed as
    `Option PublishCounts`), never a `{delivered_count, queued_count}`
    record; delivery versus queueing is reflected only in manager state
    (for an offline target the message is appended to that user queue);
    and `NotificationService.send_notification` returns the four fields
    `{notification_id, sent_at, channels, success}` with `success`
    mirroring the websocket channel boolean. -/
theorem C4_publish_returns_none (s : Manager) (u : String)
    (m : NotificationMessage) (now nid ts : String) :
    (send_to_user_enhanced s u m now).2.2 = none ∧
    (alookup s.active_connections u = none →
      alookup (send_to_user_enhanced s u m now).1.message_queue u =
        some (queue_append ((alookup s.message_queue u).getD [])
          { m with user_id := some u })) ∧
    send_notification s u nid ts =
      { notification_id := nid, sent_at := ts,
        channel_websocket := send_websocket_notification s u,
        success := send_websocket_notification s u } := by
  refine ⟨send_to_user_ret_none s u m now, ?_, rfl⟩
  intro hoff
  rw [send_to_user_offline s u m now hoff]
  exact alookup_ainsert_self _ _ _

/-- Example state for C4: user `u1` online with one healthy connection;
    `ghost` is entirely absent from every registry. -/
def mgrC4 : Manager :=
  ⟨[("u1", [("c1", ⟨1, true⟩)])], [("u1", ["c1"])], [], [],
   [("u1", ⟨"t0", "t0", 1⟩)], []⟩

/-- C4 counterexample: no call returns a `{delivered_count, queued_count}`
    record.  `send_to_user_enhanced` returns Python `None` even when it
    delivered to a live connection, and `send_notification` for a user
    with zero connections returns
    `{notification_id, sent_at, channels, success}` with `success = true`
    although nothing was delivered and nothing was queued (the legacy
    websocket channel silently does nothing for an absent user). -/
theorem C4_counterexample :
    (send_to_user_enhanced mgrC4 "u1" msgA "t1").2.2 = none ∧
    alookup mgrC4.user_connections "ghost" = none ∧
    send_notification mgrC4 "ghost" "n1" "t0" =
      { notification_id := "n1", sent_at := "t0",
        channel_websocket := true, success := true } ∧
    alookup mgrC4.message_queue "ghost" = none := by
  exact ⟨rfl, rfl, rfl, rfl⟩

theorem C4_publish_returns_none_witness :
    (send_to_user_enhanced mgrC4 "ghost" msgA "t1").2.2 = none ∧
    alookup (send_to_user_enhanced mgrC4 "ghost" msgA "t1").1.message_queue
        "ghost" =
      some (queue_append ((alookup mgrC4.message_queue "ghost").getD [])
        { msgA with user_id := some "ghost" }) ∧
    send_notification mgrC4 "ghost" "n1" "t0" =
      { notification_id := "n1", sent_at := "t0",
        channel_websocket := send_websocket_notification mgrC4 "ghost",
        success := send_websocket_notification mgrC4 "ghost" } := by
  have h := C4_publish_returns_none mgrC4 "ghost" msgA "t1" "n1" "t0"
  exact ⟨h.1, h.2.1 (by decide), h.2.2⟩

/-! ## Claim C6: snapshot versus live iteration under interference -/

theorem live_loop_guard_error (u now : String) (m : NotificationMessage)
    (n0 fuel i : Nat) (s : Manager) (interf : List (Manager → Manager))
    (dis : List String) (tr : List Attempt)
    (h : ((alookup s.active_connections u).getD []).length ≠ n0) :
    live_loop u now m n0 fuel i s interf dis tr = Except.error () := by
  cases fuel <;> simp [live_loop, h]

theorem send_live_online_eq (s : Manager) (u : String) (m : NotificationMessage)
    (now : String) (interf : List (Manager → Manager)) (conns : AListM String WS)
    (h : alookup s.active_connections u = some conns) :
    send_to_user_enhanced_live s u m now interf =
      live_loop u now { m with user_id := some u } conns.length conns.length 0 s
        interf [] [] := by
  unfold send_to_user_enhanced_live
  rw [h]

theorem topic_fanout_snapshot (m : NotificationMessage) (now : String)
    (subs : List String) :
    ∀ (s : Manager) (interf : List (Manager → Manager)) (att : List String),
      (topic_fanout m now subs s interf att).2 = att ++ subs := by
  induction subs with
  | nil => intro s interf att; simp [topic_fanout]
  | cons v rest ih =>
    intro s interf att
    rw [show topic_fanout m now (v :: rest) s interf att =
        topic_fanout m now rest
          (match interf with
           | [] => (send_to_user_enhanced s v m now).1
           | f :: _ => f (send_to_user_enhanced s v m now).1)
          interf.tail (att ++ [v]) from rfl]
    rw [ih]
    simp

/-- The length of the connection dict of `u` after an interfering
    `disconnect` of one of its present connections differs from its
    length before. -/
theorem disconnect_shrinks (s3 : Manager) (u cid2 : String)
    (conns : AListM String WS)
    (h3 : alookup s3.active_connections u = some conns)
    (hks : cid2 ∈ akeys conns) (hnd : (akeys conns).Nodup) :
    ((alookup (disconnect s3 u cid2 none).active_connections u).getD []).length ≠
      conns.length := by
  rw [alookup_disconnect_some s3 u cid2 none conns h3]
  have hsome : (alookup conns cid2).isSome := (mem_akeys_iff conns cid2).mp hks
  rw [if_pos hsome]
  have hlen := length_aerase_of_mem conns cid2 hnd hks
  by_cases h4 : (aerase conns cid2).isEmpty
  · rw [if_pos h4]
    simp only [Option.getD_none, List.length_nil]
    omega
  · rw [if_neg h4]
    simp only [Option.getD_some]
    omega

/-- C6 (amended): the topic fan-out of `send_to_topic` iterates a copy of
    the subscriber set taken before the first write, so for every
    interference at the suspension points the set of users delivered to
    is exactly the subscriber set at entry; but `send_to_user_enhanced`
    iterates the live connection dict of the user without a snapshot, so
    an unregister of any of that user's connections occurring at the
    first mid-send suspension changes the size of the dict being
    iterated and the send fails with the iteration error (RuntimeError)
    instead of being isolated from the concurrent mutation. -/
theorem C6_snapshot_only_for_topics (s st : Manager) (t : String)
    (m mt : NotificationMessage) (now : String) (u cid2 : String)
    (fs : List (Manager → Manager)) (conns : AListM String WS) :
    (∀ interf : List (Manager → Manager),
      (send_to_topic_live st t mt now interf).2 =
        (alookup st.subscriptions t).getD []) ∧
    (alookup s.active_connections u = some conns → cid2 ∈ akeys conns →
     (akeys conns).Nodup →
      send_to_user_enhanced_live s u m now
        ((fun s2 => disconnect s2 u cid2 none) :: fs) = Except.error ()) := by
  constructor
  · intro interf
    unfold send_to_topic_live
    cases hsubs : alookup st.subscriptions t with
    | none => rfl
    | some subs =>
      rw [topic_fanout_snapshot mt now subs st interf []]
      simp
  · intro h hks hnd
    rw [send_live_online_eq s u m now _ conns h]
    have hne : conns ≠ [] := by
      intro h2
      rw [h2] at hks
      simp [akeys_nil] at hks
    obtain ⟨hd, tl, rfl⟩ : ∃ hd tl, conns = hd :: tl := by
      cases conns with
      | nil => exact absurd rfl hne
      | cons hd tl => exact ⟨hd, tl, rfl⟩
    rw [show (hd :: tl).length = tl.length + 1 from by simp]
    rw [show live_loop u now { m with user_id := some u } (tl.length + 1)
        (tl.length + 1) 0 s ((fun s2 => disconnect s2 u cid2 none) :: fs) [] [] =
      (let cur := (alookup s.active_connections u).getD []
       if cur.length ≠ tl.length + 1 then Except.error ()
       else
         match cur[0]? with
         | none => Except.ok (([] : List String).foldl
             (fun s c => disconnect s u c none) s, ([] : List Attempt))
         | some (cid, ws) =>
           let a : Manager × List Attempt × List String :=
             match send_text ws with
             | Except.ok _ =>
               ({ s with user_metadata := meta_set_activity s.user_metadata u now },
                [⟨cid, { m with user_id := some u }, true⟩], [])
             | Except.error _ =>
               (s, [⟨cid, { m with user_id := some u }, false⟩], [cid])
           live_loop u now { m with user_id := some u } (tl.length + 1) tl.length 1
             (disconnect a.1 u cid2 none) fs a.2.2 a.2.1) from by
      simp only [live_loop]
      rfl]
    dsimp only
    rw [if_neg (by rw [h]; simp)]
    rw [show ((alookup s.active_connections u).getD [])[0]? = some hd from by
      rw [h]; simp]
    obtain ⟨cida, wsa⟩ := hd
    dsimp only
    cases hws : wsa.ok with
    | true =>
      rw [show send_text wsa = Except.ok () from by simp [send_text, hws]]
      dsimp only
      apply live_loop_guard_error
      exact disconnect_shrinks
        { s with user_metadata := meta_set_activity s.user_metadata u now }
        u cid2 _ h hks hnd
    | false =>
      rw [show send_text wsa = Except.error () from by simp [send_text, hws]]
      dsimp only
      apply live_loop_guard_error
      exact disconnect_shrinks _ u cid2 _ h hks hnd

/-- Example state for C6: user `u` with two healthy connections. -/
def mgrC6 : Manager :=
  ⟨[("u", [("c1", ⟨1, true⟩), ("c2", ⟨2, true⟩)])],
   [("u", ["c1", "c2"])], [], [("robots", ["u"])],
   [("u", ⟨"t0", "t0", 2⟩)], []⟩

/-- C6 counterexample: with user `u` holding connections `c1` and `c2`, a
    concurrent task that unregisters `c2` while the fan-out of
    `send_to_user_enhanced` awaits its first write makes the live
    iteration over the connection dict fail (RuntimeError), which is
    exactly the hazard the claimed entry snapshot would have prevented. -/
theorem C6_counterexample :
    send_to_user_enhanced_live mgrC6 "u" msgA "t1"
      [fun s2 => disconnect s2 "u" "c2" none] = Except.error () := by
  rfl

theorem C6_snapshot_only_for_topics_witness :
    (send_to_topic_live mgrC6 "robots" msgB "t1"
        [fun s2 => disconnect s2 "u" "c1" none]).2 =
      (alookup mgrC6.subscriptions "robots").getD [] ∧
    send_to_user_enhanced_live mgrC6 "u" msgB "t1"
      ((fun s2 => disconnect s2 "u" "c1" none) :: []) = Except.error () := by
  have h := C6_snapshot_only_for_topics mgrC6 mgrC6 "robots" msgB msgB "t1"
    "u" "c1" [] [("c1", ⟨1, true⟩), ("c2", ⟨2, true⟩)]
  exact ⟨h.1 [fun s2 => disconnect s2 "u" "c1" none],
    h.2 (by decide) (by decide) (by decide)⟩

/-! ## Claim C3 -/

/-- C3: A user queue never holds more than 100 entries after an enqueue:
    starting from an empty queue, any sequence of enqueues leaves exactly
    the most recent at-most-100 messages in enqueue order; enqueuing into
    a full queue of 100 evicts the oldest entry; at the manager level
    `_queue_message` appends through `queue_append` to the addressed user
    and leaves every other user queue unchanged. -/
theorem C3_queue_bounded (s : Manager) (u v : String) (m : NotificationMessage)
    (ms : List NotificationMessage) (q : List NotificationMessage) :
    ms.foldl queue_append [] = ms.drop (ms.length - 100) ∧
    (ms.foldl queue_append []).length ≤ 100 ∧
    (q.length = 100 → queue_append q m = q.drop 1 ++ [m]) ∧
    alookup (queue_message s u m).message_queue u =
      some (queue_append ((alookup s.message_queue u).getD []) m) ∧
    (v ≠ u → alookup (queue_message s u m).message_queue v =
      alookup s.message_queue v) := by
  have hfold := foldl_queue_append ms [] (by simp)
  simp only [List.nil_append] at hfold
  refine ⟨hfold, ?_, queue_append_full q m, ?_, ?_⟩
  · rw [hfold]
    simp only [List.length_drop]
    omega
  · exact alookup_ainsert_self _ _ _
  · intro hv
    exact alookup_ainsert_ne _ _ _ _ hv

theorem C3_queue_bounded_witness :
    ([msgA, msgB].foldl queue_append [] =
      [msgA, msgB].drop ([msgA, msgB].length - 100)) ∧
    ([msgA, msgB].foldl queue_append []).length ≤ 100 ∧
    queue_append (List.replicate 100 msgA) msgB =
      (List.replicate 100 msgA).drop 1 ++ [msgB] ∧
    alookup (queue_message mgrC1 "w" msgB).message_queue "w" =
      some (queue_append ((alookup mgrC1.message_queue "w").getD []) msgB) ∧
    alookup (queue_message mgrC1 "w" msgB).message_queue "u" =
      alookup mgrC1.message_queue "u" := by
  have h := C3_queue_bounded mgrC1 "w" "u" msgB [msgA, msgB]
    (List.replicate 100 msgA)
  exact ⟨h.1, h.2.1, h.2.2.1 (by simp), h.2.2.2.1, h.2.2.2.2 (by decide)⟩

end Gephr
